import Mathlib

/-!
Verification of the localized-stylesheet compiler of Paws-Puffs.

Strings of the JavaScript source are modelled as `List Char` (`Str`); JS
`Map` objects and plain objects (both insertion-ordered, string-keyed) are
modelled as ordered association lists with the operations `mapGet`,
`mapSet`, `mapDelete` and `objOf` implementing the JS semantics
(update-in-place keeps the original position, insertion appends).
-/

set_option maxRecDepth 40000

namespace VE

abbrev Str := List Char

/-- JS `String.prototype.trim` (whitespace stripped from both ends). -/
def trim (s : Str) : Str :=
  ((s.dropWhile Char.isWhitespace).reverse.dropWhile Char.isWhitespace).reverse

/-- JS `String.prototype.startsWith`. -/
def strStarts (s pre : Str) : Bool := pre.isPrefixOf s

/-- JS `String.prototype.endsWith`. -/
def strEnds (s suf : Str) : Bool := suf.isSuffixOf s

/-- JS `String.prototype.includes` (substring test). -/
def strIncl : Str → Str → Bool
  | s, sub =>
    if sub.isPrefixOf s then true
    else match s with
      | [] => false
      | _ :: t => strIncl t sub

/-- Index of the first occurrence of character `c`, JS `indexOf` with `none` for `-1`. -/
def idxOf : Str → Char → Option Nat
  | [], _ => none
  | c' :: t, c => if c' = c then some 0 else (idxOf t c).map (· + 1)

/-- JS `String.prototype.split` on a single-character class: splits at every
matching character, keeping empty segments. -/
def splitChars (p : Char → Bool) : Str → List Str
  | [] => [[]]
  | c :: t =>
    let r := splitChars p t
    if p c then [] :: r
    else match r with
      | [] => [[c]]
      | h :: t' => (c :: h) :: t'

/-- JS `split('\n')`. -/
def splitLines (s : Str) : List Str := splitChars (· = '\n') s

/-- JS `String.prototype.replace` with a plain-string pattern: replaces the
first occurrence only. -/
def replaceFirst (target repl : Str) : Str → Str
  | [] => if target.isPrefixOf [] then repl else []
  | s@(c :: t) =>
    if target.isPrefixOf s then repl ++ s.drop target.length
    else c :: replaceFirst target repl t

/-- Structural worker for `replaceAllStr`: the `skip` counter consumes the
rest of an already-replaced occurrence. -/
def replaceAllGo (target repl : Str) : Nat → Str → Str
  | _, [] => []
  | n+1, _ :: t => replaceAllGo target repl n t
  | 0, c :: t =>
    if target ≠ [] ∧ target.isPrefixOf (c :: t) then
      repl ++ replaceAllGo target repl (target.length - 1) t
    else c :: replaceAllGo target repl 0 t

/-- JS `String.prototype.replace` with a `/…/g` plain-string pattern:
replaces every non-overlapping occurrence, left to right.  A guard for the
empty pattern keeps the function total (the source never uses one). -/
def replaceAllStr (target repl : Str) (s : Str) : Str :=
  replaceAllGo target repl 0 s

/-- JS `Map.prototype.get` / object property read. -/
def mapGet (m : List (Str × α)) (k : Str) : Option α :=
  (m.find? (fun e => decide (e.1 = k))).map (·.2)

/-- JS `Map.prototype.has`. -/
def mapHas (m : List (Str × α)) (k : Str) : Bool := (mapGet m k).isSome

/-- JS `Map.prototype.set` / object property write: updates in place when the
key exists (keeping its position), appends otherwise. -/
def mapSet : List (Str × α) → Str → α → List (Str × α)
  | [], k, v => [(k, v)]
  | (k', v') :: t, k, v =>
    if k' = k then (k', v) :: t else (k', v') :: mapSet t k v

/-- JS `Map.prototype.delete` / `delete obj[k]`. -/
def mapDelete (m : List (Str × α)) (k : Str) : List (Str × α) :=
  m.filter (fun e => decide (e.1 ≠ k))

/-- Evaluation of a JS object literal: later duplicate keys keep the first
occurrence's position but take the last value. -/
def objOf (entries : List (Str × α)) : List (Str × α) :=
  entries.foldl (fun m e => mapSet m e.1 e.2) []

/-- JS `x || dflt` for string-valued `x` (empty string and `undefined` are falsy). -/
def orD (v : Option Str) (dflt : Str) : Str :=
  match v with
  | some s => if s = [] then dflt else s
  | none => dflt

/-- Truthiness of `obj[k]` for a string-valued map. -/
def truthyGet (m : List (Str × Str)) (k : Str) : Bool :=
  match mapGet m k with
  | some v => v ≠ []
  | none => false

/-- Decimal numeral of a natural number (JS number-to-string for the lengths
used by the cache key). -/
def natStr (n : Nat) : Str := (Nat.repr n).toList

/-- Shorthand to write a `Str` literal. -/
def S (s : String) : Str := s.toList

/-- Converts a literal table of string pairs to `Str` pairs. -/
def strPairs (l : List (String × String)) : List (Str × Str) :=
  l.map (fun p => (p.1.toList, p.2.toList))

/-- Converts a literal list of strings to `Str`s. -/
def strList (l : List String) : List Str := l.map (·.toList)

/-! ## Alias dictionary of `VisualEditorFormatParser` (constructor literals)

The object literals are transcribed entry by entry in source order,
duplicate keys included; `objOf` applies the JS object-literal semantics. -/

/-- Entries of the `elementMap` object literal (source order, duplicates kept). -/
def elementMapPairs : List (Str × Str) := strPairs
  [("用户消息", ".mes[is_user=\"true\"] .mes_block"),
   ("角色消息", ".mes:not([is_user=\"true\"]) .mes_block"),
   ("AI消息", ".mes[is_user=\"false\"] .mes_block"),
   ("消息文本", ".mes_text"),
   ("角色名称", ".ch_name"),
   ("用户头像", ".mes[is_user=\"true\"] .avatar img"),
   ("角色头像", ".mes:not([is_user=\"true\"]) .avatar img"),
   ("头像", ".avatar img"),
   ("时间戳", ".timestamp"),
   ("输入框", "#send_textarea"),
   ("发送按钮", "#send_but"),
   ("输入区域", "#send_form"),
   ("停止按钮", "#stop_generate"),
   ("聊天区域", "#chat"),
   ("顶部栏", "#top-bar"),
   ("侧边栏", ".drawer-content"),
   ("页面背景", "body"),
   ("通用按钮", ".menu_button"),
   ("滑动按钮", ".swipe_left, .swipe_right"),
   ("弹窗", ".popup"),
   ("滚动条", "::-webkit-scrollbar"),
   ("滚动条滑块", "::-webkit-scrollbar-thumb"),
   ("角色卡片", ".character_select"),
   ("角色标签", ".character_tag"),
   ("世界书条目", ".world_entry"),
   ("条目标题", ".world_entry_title"),
   ("条目内容", ".world_entry_content"),
   ("用户头像", ".mes[is_user=\"true\"] .avatar"),
   ("AI角色头像", ".mes[is_user=\"false\"] .avatar"),
   ("角色头像", ".mes[is_user=\"false\"] .avatar"),
   ("用户消息ID", ".mes[is_user=\"true\"] .mesIDDisplay"),
   ("用户Token计数", ".mes[is_user=\"true\"] .tokenCounterDisplay"),
   ("AI消息ID", ".mes[is_user=\"false\"] .mesIDDisplay"),
   ("AI计时器", ".mes[is_user=\"false\"] .mes_timer"),
   ("AIToken计数", ".mes[is_user=\"false\"] .tokenCounterDisplay"),
   ("AI响应配置", "#leftNavDrawerIcon"),
   ("角色管理图标", "#rightNavDrawerIcon"),
   ("扩展菜单图标", "#extensionsMenuIcon"),
   ("设置图标", "#settingsIcon")]

/-- `this.elementMap` after object-literal evaluation. -/
def elementMap : List (Str × Str) := objOf elementMapPairs

/-- `this.reverseElementMap`: plain assignment per entry, so the
last-enumerated alias for a selector wins. -/
def reverseElementMap : List (Str × Str) :=
  elementMap.foldl (fun m e => mapSet m e.2 e.1) []

/-- Entries of the `propertyMap` object literal (source order, duplicates kept). -/
def propertyMapPairs : List (Str × Str) := strPairs
  [("背景颜色", "background-color"),
   ("背景", "background"),
   ("背景图片", "background-image"),
   ("背景大小", "background-size"),
   ("背景位置", "background-position"),
   ("背景重复", "background-repeat"),
   ("背景附着", "background-attachment"),
   ("文字颜色", "color"),
   ("透明度", "opacity"),
   ("图标颜色", "icon-color"),
   ("图标大小", "icon-size"),
   ("布局模式", "avatar-layout-mode"),
   ("头像位置", "avatar-position"),
   ("水平偏移", "avatar-offset-x"),
   ("垂直偏移", "avatar-offset-y"),
   ("旋转角度", "avatar-rotate"),
   ("信息布局模式", "info-layout-mode"),
   ("信息位置", "info-position"),
   ("信息水平偏移", "info-offset-x"),
   ("信息垂直偏移", "info-offset-y"),
   ("信息旋转角度", "info-rotate"),
   ("排列方向", "info-direction"),
   ("边框", "border"),
   ("圆角", "border-radius"),
   ("边框颜色", "border-color"),
   ("边框宽度", "border-width"),
   ("边框样式", "border-style"),
   ("内边距", "padding"),
   ("外边距", "margin"),
   ("上边距", "margin-top"),
   ("下边距", "margin-bottom"),
   ("左边距", "margin-left"),
   ("右边距", "margin-right"),
   ("上内边距", "padding-top"),
   ("下内边距", "padding-bottom"),
   ("左内边距", "padding-left"),
   ("右内边距", "padding-right"),
   ("字体大小", "font-size"),
   ("字体", "font-family"),
   ("字体粗细", "font-weight"),
   ("行高", "line-height"),
   ("字间距", "letter-spacing"),
   ("文字对齐", "text-align"),
   ("文字装饰", "text-decoration"),
   ("文字变换", "text-transform"),
   ("宽度", "width"),
   ("高度", "height"),
   ("最大宽度", "max-width"),
   ("最小宽度", "min-width"),
   ("最大高度", "max-height"),
   ("最小高度", "min-height"),
   ("阴影", "box-shadow"),
   ("文字阴影", "text-shadow"),
   ("启用阴影", "shadow-enabled"),
   ("阴影水平偏移", "shadow-x"),
   ("阴影垂直偏移", "shadow-y"),
   ("阴影模糊", "shadow-blur"),
   ("阴影扩散", "shadow-spread"),
   ("阴影颜色", "shadow-color"),
   ("阴影透明度", "shadow-opacity"),
   ("滤镜", "filter"),
   ("模糊", "blur"),
   ("亮度", "brightness"),
   ("对比度", "contrast"),
   ("灰度", "grayscale"),
   ("色相旋转", "hue-rotate"),
   ("饱和度", "saturate"),
   ("反转", "invert"),
   ("褐色", "sepia"),
   ("过渡效果", "transition"),
   ("过渡", "transition"),
   ("动画", "animation"),
   ("变换", "transform"),
   ("显示方式", "display"),
   ("定位", "position"),
   ("层级", "z-index"),
   ("浮动", "float"),
   ("溢出", "overflow"),
   ("溢出水平", "overflow-x"),
   ("溢出垂直", "overflow-y"),
   ("位置", "position"),
   ("顶部", "top"),
   ("底部", "bottom"),
   ("左边", "left"),
   ("右边", "right"),
   ("左", "left"),
   ("右", "right"),
   ("上", "top"),
   ("下", "bottom"),
   ("弹性方向", "flex-direction"),
   ("弹性换行", "flex-wrap"),
   ("弹性流", "flex-flow"),
   ("主轴对齐", "justify-content"),
   ("交叉轴对齐", "align-items"),
   ("内容对齐", "align-content"),
   ("弹性增长", "flex-grow"),
   ("弹性收缩", "flex-shrink"),
   ("弹性基础", "flex-basis"),
   ("弹性", "flex"),
   ("自身对齐", "align-self"),
   ("顺序", "order"),
   ("间距", "gap"),
   ("行间距", "row-gap"),
   ("列间距", "column-gap"),
   ("网格模板列", "grid-template-columns"),
   ("网格模板行", "grid-template-rows"),
   ("网格模板区域", "grid-template-areas"),
   ("网格模板", "grid-template"),
   ("网格列间距", "column-gap"),
   ("网格行间距", "row-gap"),
   ("网格间距", "gap"),
   ("网格列开始", "grid-column-start"),
   ("网格列结束", "grid-column-end"),
   ("网格列", "grid-column"),
   ("网格行开始", "grid-row-start"),
   ("网格行结束", "grid-row-end"),
   ("网格行", "grid-row"),
   ("网格区域", "grid-area"),
   ("网格自动列", "grid-auto-columns"),
   ("网格自动行", "grid-auto-rows"),
   ("网格自动流", "grid-auto-flow"),
   ("变换原点", "transform-origin"),
   ("变换风格", "transform-style"),
   ("透视", "perspective"),
   ("透视原点", "perspective-origin"),
   ("背面可见", "backface-visibility"),
   ("动画名称", "animation-name"),
   ("动画持续时间", "animation-duration"),
   ("动画时间函数", "animation-timing-function"),
   ("动画延迟", "animation-delay"),
   ("动画次数", "animation-iteration-count"),
   ("动画方向", "animation-direction"),
   ("动画填充模式", "animation-fill-mode"),
   ("动画播放状态", "animation-play-state"),
   ("过渡属性", "transition-property"),
   ("过渡持续时间", "transition-duration"),
   ("过渡时间函数", "transition-timing-function"),
   ("过渡延迟", "transition-delay"),
   ("亮度", "brightness"),
   ("对比度", "contrast"),
   ("灰度", "grayscale"),
   ("色相旋转", "hue-rotate"),
   ("色相", "hue-rotate"),
   ("饱和度", "saturate"),
   ("反转", "invert"),
   ("褐色", "sepia"),
   ("模糊度", "blur"),
   ("投影", "drop-shadow"),
   ("混合模式", "mix-blend-mode"),
   ("背景混合模式", "background-blend-mode"),
   ("裁剪路径", "clip-path"),
   ("裁剪", "clip"),
   ("蒙版", "mask"),
   ("蒙版图片", "mask-image"),
   ("蒙版大小", "mask-size"),
   ("蒙版位置", "mask-position"),
   ("蒙版重复", "mask-repeat"),
   ("滚动行为", "scroll-behavior"),
   ("滚动捕捉类型", "scroll-snap-type"),
   ("滚动捕捉对齐", "scroll-snap-align"),
   ("滚动边距", "scroll-margin"),
   ("滚动内边距", "scroll-padding"),
   ("形状外部", "shape-outside"),
   ("形状边距", "shape-margin"),
   ("形状图片阈值", "shape-image-threshold"),
   ("指针事件", "pointer-events"),
   ("触摸动作", "touch-action"),
   ("用户拖拽", "user-drag"),
   ("用户修改", "user-modify"),
   ("文本溢出", "text-overflow"),
   ("单词换行", "word-wrap"),
   ("单词断行", "word-break"),
   ("连字符", "hyphens"),
   ("文本方向", "writing-mode"),
   ("文本阴影模糊", "text-shadow-blur"),
   ("表格布局", "table-layout"),
   ("边框合并", "border-collapse"),
   ("边框间距", "border-spacing"),
   ("空单元格", "empty-cells"),
   ("标题位置", "caption-side"),
   ("列表样式", "list-style"),
   ("列表样式类型", "list-style-type"),
   ("列表样式位置", "list-style-position"),
   ("列表样式图片", "list-style-image"),
   ("是否超出父元素显示", "decoration-overflow-mode"),
   ("鼠标样式", "cursor"),
   ("用户选择", "user-select"),
   ("内容", "content"),
   ("模糊效果", "backdrop-filter"),
   ("计数器重置", "counter-reset"),
   ("计数器增量", "counter-increment"),
   ("引用", "quotes"),
   ("孤行控制", "orphans"),
   ("寡行控制", "widows"),
   ("分页前", "page-break-before"),
   ("分页后", "page-break-after"),
   ("分页内", "page-break-inside")]

/-- `this.propertyMap` after object-literal evaluation. -/
def propertyMap : List (Str × Str) := objOf propertyMapPairs

/-- `this.reversePropertyMap`: only the first alias for a canonical property
is kept (`if (!this.reversePropertyMap[prop])` guard). -/
def reversePropertyMap : List (Str × Str) :=
  propertyMap.foldl (fun m e => if truthyGet m e.2 then m else mapSet m e.2 e.1) []

/-- The `presetValues` object literal. -/
def presetValues : List (Str × Str) := objOf (strPairs
  [("透明", "transparent"),
   ("无", "none"),
   ("包含", "contain"),
   ("覆盖", "cover"),
   ("自动", "auto"),
   ("相对定位", "relative"),
   ("绝对定位", "absolute"),
   ("固定定位", "fixed"),
   ("粘性定位", "sticky"),
   ("静态定位", "static"),
   ("块级", "block"),
   ("行内", "inline"),
   ("行内块", "inline-block"),
   ("弹性盒", "flex"),
   ("网格", "grid"),
   ("表格", "table"),
   ("表格行", "table-row"),
   ("表格单元格", "table-cell"),
   ("启用", "enabled"),
   ("禁用", "disabled"),
   ("毛玻璃", "blur(8px)"),
   ("快速过渡", "all 0.2s ease"),
   ("标准过渡", "all 0.3s ease"),
   ("慢速过渡", "all 0.5s ease")])

/-- Keys of the `functionPatterns` object, in source order.  Every pattern
has the shape `^<name>\((.*?)\)$`, so only the name is needed. -/
def functionPatternNames : List Str := strList
  ["缩放", "旋转", "移动", "倾斜", "矩阵",
   "模糊", "投影", "亮度", "对比度", "饱和度",
   "色相", "色相旋转", "灰度", "反转", "褐色",
   "渐变", "线性渐变", "径向渐变", "圆锥渐变",
   "计算", "最小值", "最大值", "夹值", "变量"]

/-- Entries of `parseUnitValue`'s `unitMap`, in source order. -/
def unitMapEntries : List (Str × Str) := strPairs
  [("像素", "px"),
   ("字高", "em"),
   ("根字高", "rem"),
   ("字符宽", "ch"),
   ("字符高", "ex"),
   ("英寸", "in"),
   ("厘米", "cm"),
   ("毫米", "mm"),
   ("点", "pt"),
   ("派卡", "pc"),
   ("视口宽", "vw"),
   ("视口高", "vh"),
   ("视口最小", "vmin"),
   ("视口最大", "vmax"),
   ("百分比", "%"),
   ("倍", ""),
   ("分数", "fr"),
   ("度", "deg"),
   ("弧度", "rad"),
   ("梯度", "grad"),
   ("圈", "turn"),
   ("秒", "s"),
   ("毫秒", "ms"),
   ("赫兹", "Hz"),
   ("千赫兹", "kHz"),
   ("每英寸点数", "dpi"),
   ("每厘米点数", "dpcm"),
   ("每像素点数", "dppx")]

/-- `getSelector`: `this.elementMap[elementName] || elementName`. -/
def getSelector (elementName : Str) : Str := orD (mapGet elementMap elementName) elementName

/-- `getElementName`: `this.reverseElementMap[selector] || selector`. -/
def getElementName (selector : Str) : Str := orD (mapGet reverseElementMap selector) selector

/-- `getProperty`: `this.propertyMap[propName] || propName`. -/
def getProperty (propName : Str) : Str := orD (mapGet propertyMap propName) propName

/-- `getPropertyName`: `this.reversePropertyMap[prop] || prop`. -/
def getPropertyName (prop : Str) : Str := orD (mapGet reversePropertyMap prop) prop

/-! ## Value translation (`parseValue` and helpers) -/

/-- One application of the regex `/^["']|["']$/g`: strips one leading and one
trailing quote character. -/
def isQuote (c : Char) : Bool := c = '"' ∨ c = '\''

/-- Leading-quote half of the regex `/^["']|["']$/g`. -/
def dropLeadQuote : Str → Str
  | [] => []
  | c :: t => if isQuote c then t else c :: t

/-- Trailing-quote half of the regex `/^["']|["']$/g`. -/
def dropTrailQuote (s : Str) : Str :=
  match s.reverse with
  | c :: t => if isQuote c then t.reverse else s
  | [] => s

/-- `value.replace(/^["']|["']$/g, '')`. -/
def stripQuotes (s : Str) : Str := dropTrailQuote (dropLeadQuote s)

/-- Hex digit test of the character class `[0-9a-fA-F]`. -/
def isHexDigit (c : Char) : Bool := c.isDigit ∨ ('a' ≤ c ∧ c ≤ 'f') ∨ ('A' ≤ c ∧ c ≤ 'F')

/-- Value of a single hex digit. -/
def hexDigitVal (c : Char) : Nat :=
  if c.isDigit then c.toNat - 48
  else if 'a' ≤ c ∧ c ≤ 'f' then c.toNat - 87
  else c.toNat - 55

/-- JS `parseInt(s, 16)`: leading whitespace skipped, longest hex-digit
run parsed, `NaN` (here `none`) when no digit is found. -/
def parseIntHex (s : Str) : Option Nat :=
  let t := s.dropWhile Char.isWhitespace
  let ds := t.takeWhile isHexDigit
  if ds.isEmpty then none
  else some (ds.foldl (fun acc c => acc * 16 + hexDigitVal c) 0)

/-- Rendering of a JS number-or-NaN into a template literal. -/
def numOrNaN : Option Nat → Str
  | some n => natStr n
  | none => S "NaN"

/-- Test of the regex `/^#[0-9a-fA-F]{3,6}$/`. -/
def isHexColor (s : Str) : Bool :=
  match s with
  | '#' :: rest => 3 ≤ rest.length ∧ rest.length ≤ 6 ∧ rest.all isHexDigit
  | _ => false

/-- `hexToRgb`. -/
def hexToRgb (hexArg : Str) : Str :=
  let hex0 := replaceFirst (S "#") [] hexArg
  let hex := match hex0 with
    | [a, b, c] => [a, a, b, b, c, c]
    | _ => hex0
  let r := parseIntHex (hex.take 2)
  let g := parseIntHex ((hex.drop 2).take 2)
  let b := parseIntHex ((hex.drop 4).take 2)
  S "rgb(" ++ numOrNaN r ++ S "," ++ numOrNaN g ++ S "," ++ numOrNaN b ++ S ")"

/-- The five localized units accepted by the gate regex
`/^\d+(?:\.\d+)?(?:像素|百分比|倍|度|字高)$/` of `parseValue`. -/
def gateUnits : List Str := strList ["像素", "百分比", "倍", "度", "字高"]

/-- Splits a leading `\d+(?:\.\d+)?` numeral off a string. -/
def numSplit (s : Str) : Option (Str × Str) :=
  let ds := s.takeWhile Char.isDigit
  if ds.isEmpty then none
  else
    let r1 := s.drop ds.length
    match r1 with
    | '.' :: t =>
      let ds2 := t.takeWhile Char.isDigit
      if ds2.isEmpty then some (ds, r1) else some (ds ++ '.' :: ds2, t.drop ds2.length)
    | _ => some (ds, r1)

/-- Test of the unit-gate regex of `parseValue`. -/
def unitGateMatch (s : Str) : Bool :=
  match numSplit s with
  | some (_, rem) => gateUnits.any (fun u => decide (rem = u))
  | none => false

/-- The `for … of Object.entries(unitMap)` loop body of `parseUnitValue`. -/
def parseUnitValueLoop : List (Str × Str) → Str → Str
  | [], value => value
  | (cn, css) :: rest, value =>
    if strEnds value cn then replaceFirst cn [] value ++ css
    else parseUnitValueLoop rest value

/-- `parseUnitValue`. -/
def parseUnitValue (value : Str) : Str := parseUnitValueLoop unitMapEntries value

/-- Match of one `functionPatterns` regex `^<name>\((.*?)\)$` against a value
(`. ` does not cross a newline). -/
def fnMatch (name value : Str) : Option Str :=
  if strStarts value (name ++ ['(']) ∧ strEnds value [')'] ∧ name.length + 2 ≤ value.length then
    if ((value.drop (name.length + 1)).dropLast).all (· ≠ '\n') then
      some ((value.drop (name.length + 1)).dropLast)
    else none
  else none

/-- The `for … of Object.entries(this.functionPatterns)` search loop of
`parseValue`. -/
def findFnLoop : List Str → Str → Option (Str × Str)
  | [], _ => none
  | name :: rest, value =>
    match fnMatch name value with
    | some inner => some (name, inner)
    | none => findFnLoop rest value

/-- First matching function pattern of a value. -/
def findFn (value : Str) : Option (Str × Str) := findFnLoop functionPatternNames value

theorem dropLeadQuote_length_le (s : Str) : (dropLeadQuote s).length ≤ s.length := by
  cases s with
  | nil => simp [dropLeadQuote]
  | cons c t =>
    simp only [dropLeadQuote]
    split <;> simp

theorem dropTrailQuote_length_le (s : Str) : (dropTrailQuote s).length ≤ s.length := by
  unfold dropTrailQuote
  cases ht : s.reverse with
  | nil => simp
  | cons c t =>
    dsimp only
    have hlen : s.length = t.length + 1 := by
      have := congrArg List.length ht
      simpa using this
    by_cases hq : isQuote c = true
    · simp only [hq, if_true, List.length_reverse]
      omega
    · simp [hq]

theorem stripQuotes_length_le (s : Str) : (stripQuotes s).length ≤ s.length :=
  le_trans (dropTrailQuote_length_le _) (dropLeadQuote_length_le s)

theorem fnMatch_length_lt {name value inner : Str} (hne : name ≠ [])
    (h : fnMatch name value = some inner) : inner.length < value.length := by
  unfold fnMatch at h
  split at h
  · rename_i hc
    obtain ⟨-, -, hlen⟩ := hc
    split at h
    · cases h
      have h1 : 1 ≤ name.length := by
        cases name with
        | nil => exact absurd rfl hne
        | cons a b => simp
      simp only [List.length_dropLast, List.length_drop]
      omega
    · cases h
  · cases h

theorem findFnLoop_length_lt {l : List Str} {value : Str} {p : Str × Str}
    (hl : ∀ n ∈ l, n ≠ []) (h : findFnLoop l value = some p) :
    p.2.length < value.length := by
  induction l with
  | nil => simp [findFnLoop] at h
  | cons name rest ih =>
    simp only [findFnLoop] at h
    cases hm : fnMatch name value with
    | some inner =>
      rw [hm] at h
      cases h
      exact fnMatch_length_lt (hl name (by simp)) hm
    | none =>
      rw [hm] at h
      exact ih (fun n hn => hl n (by simp [hn])) h

theorem findFn_length_lt {value : Str} {p : Str × Str}
    (h : findFn value = some p) : p.2.length < value.length := by
  have hl : ∀ n ∈ functionPatternNames, n ≠ [] := by decide
  exact findFnLoop_length_lt hl h

/-- Prepends a character to the first segment of a split result. -/
def consHead (c : Char) : List Str → List Str
  | [] => [[c]]
  | h :: t => (c :: h) :: t

/-- JS `String.prototype.split` with a (nonempty) string separator. -/
def splitOnSub (sep : Str) : Str → List Str
  | [] => [[]]
  | c :: t =>
    if h : sep ≠ [] ∧ sep.isPrefixOf (c :: t) then
      [] :: splitOnSub sep ((c :: t).drop sep.length)
    else
      consHead c (splitOnSub sep t)
termination_by s => s.length
decreasing_by
  · simp only [List.length_drop, List.length_cons]
    have hle : 1 ≤ sep.length := by
      cases sep with
      | nil => exact absurd rfl h.1
      | cons a b => simp
    omega
  · simp

theorem splitOnSub_ne_nil (sep s : Str) : splitOnSub sep s ≠ [] := by
  induction s using splitOnSub.induct sep with
  | case1 => simp [splitOnSub]
  | case2 c t h ih =>
    rw [splitOnSub]
    simp only [dif_pos h]
    simp
  | case3 c t h ih =>
    rw [splitOnSub]
    simp only [dif_neg h]
    cases hm : splitOnSub sep t with
    | nil => simp [consHead]
    | cons a b => simp [consHead]

theorem isPrefixOf_append_drop {l s : Str} (h : l.isPrefixOf s = true) :
    s = l ++ s.drop l.length := by
  have hp : l <+: s := List.isPrefixOf_iff_prefix.mp h
  obtain ⟨t, ht⟩ := hp
  subst ht
  simp

theorem splitOnSub_one (sep : Str) :
    ∀ s a, splitOnSub sep s = [a] → s = a := by
  intro s
  induction s using splitOnSub.induct sep with
  | case1 =>
    intro a h
    simp only [splitOnSub, List.cons.injEq] at h
    exact h.1
  | case2 c t h ih =>
    intro a hs
    rw [splitOnSub] at hs
    simp only [dif_pos h] at hs
    cases hm : splitOnSub sep ((c :: t).drop sep.length) with
    | nil => exact absurd hm (splitOnSub_ne_nil sep _)
    | cons x y =>
      rw [hm] at hs
      simp at hs
  | case3 c t h ih =>
    intro a hs
    rw [splitOnSub] at hs
    simp only [dif_neg h] at hs
    cases hm : splitOnSub sep t with
    | nil => exact absurd hm (splitOnSub_ne_nil sep t)
    | cons x y =>
      rw [hm] at hs
      cases y with
      | nil =>
        simp only [consHead, List.cons.injEq] at hs
        obtain ⟨h1, -⟩ := hs
        have h2 := ih x hm
        rw [← h1, h2]
      | cons z w => simp [consHead] at hs

theorem splitOnSub_two (sep : Str) :
    ∀ s a b, splitOnSub sep s = [a, b] → s = a ++ sep ++ b := by
  intro s
  induction s using splitOnSub.induct sep with
  | case1 =>
    intro a b h
    simp [splitOnSub] at h
  | case2 c t h ih =>
    intro a b hs
    rw [splitOnSub] at hs
    simp only [dif_pos h, List.cons.injEq] at hs
    obtain ⟨ha, hrest⟩ := hs
    have hb := splitOnSub_one sep _ _ hrest
    rw [← ha]
    have h2 := isPrefixOf_append_drop h.2
    rw [List.nil_append]
    calc c :: t = sep ++ (c :: t).drop sep.length := h2
    _ = sep ++ b := by rw [hb]
  | case3 c t h ih =>
    intro a b hs
    rw [splitOnSub] at hs
    simp only [dif_neg h] at hs
    cases hm : splitOnSub sep t with
    | nil => exact absurd hm (splitOnSub_ne_nil sep t)
    | cons x y =>
      rw [hm] at hs
      cases y with
      | nil => simp [consHead] at hs
      | cons z w =>
        simp only [consHead, List.cons.injEq] at hs
        obtain ⟨h1, h2, h3⟩ := hs
        rw [h3] at hm
        have h4 := ih x z hm
        rw [← h1, ← h2, List.cons_append, List.cons_append, ← h4]

/-- The separator `' 到 '` of the gradient mini-syntax. -/
def sepTo : Str := S " 到 "

theorem splitOnSub_sepTo_lt {s a b : Str} (h : splitOnSub sepTo s = [a, b]) :
    a.length < s.length ∧ b.length < s.length := by
  have := splitOnSub_two sepTo s a b h
  have hlen := congrArg List.length this
  simp only [List.length_append] at hlen
  have hsep : sepTo.length = 3 := by decide
  omega

/-- The `layoutModeMap` literal of the `avatar-layout-mode` branch. -/
def layoutModeMap : List (Str × Str) := objOf (strPairs
  [("无", "none"),
   ("无布局", "none"),
   ("挤压文字模式", "squeeze"),
   ("挤压模式", "squeeze"),
   ("悬浮模式", "overlay"),
   ("覆盖模式", "overlay")])

/-- The `infoLayoutModeMap` literal of the `info-layout-mode` branch. -/
def infoLayoutModeMap : List (Str × Str) := objOf (strPairs
  [("无", "none"),
   ("保持原位置", "none"),
   ("挤压文字模式", "squeeze"),
   ("挤压模式", "squeeze"),
   ("影响布局", "squeeze"),
   ("悬浮模式", "overlay"),
   ("覆盖在上层", "overlay"),
   ("覆盖模式", "overlay")])

/-- The `directionMap` literal of the `info-direction` branch. -/
def directionMap : List (Str × Str) := objOf (strPairs
  [("竖列", "column"),
   ("上下排列", "column"),
   ("垂直排列", "column"),
   ("横列", "row"),
   ("左右排列", "row"),
   ("水平排列", "row")])

/-- The `positionMap` literal: the `info-position` and `avatar-position`
branches each contain this identical table. -/
def positionValueMapCN : List (Str × Str) := objOf (strPairs
  [("顶部左", "top-left"),
   ("顶部中", "top-center"),
   ("顶部右", "top-right"),
   ("左边上", "left-top"),
   ("左边中", "left-middle"),
   ("左边下", "left-bottom"),
   ("右边上", "right-top"),
   ("右边中", "right-middle"),
   ("右边下", "right-bottom"),
   ("底部左", "bottom-left"),
   ("底部中", "bottom-center"),
   ("底部右", "bottom-right"),
   ("顶左", "top-left"),
   ("顶中", "top-center"),
   ("顶右", "top-right"),
   ("左上", "left-top"),
   ("左中", "left-middle"),
   ("左下", "left-bottom"),
   ("右上", "right-top"),
   ("右中", "right-middle"),
   ("右下", "right-bottom"),
   ("底左", "bottom-left"),
   ("底中", "bottom-center"),
   ("底右", "bottom-right")])

mutual

/-- `parseValue(value, property)` of the format parser, structurally
recursive on a fuel bound.  The recursion (value → function pattern →
gradient → sub-value) strictly shrinks the value, so any fuel above the
value's length makes the out-of-fuel fallbacks unreachable; the public
wrappers below supply such a bound. -/
def parseValueF : Nat → Str → Str → Str
  | 0, value, _ => value
  | fuel+1, value, property =>
    if property = [] then value
    else
      let v := stripQuotes value
      if truthyGet presetValues v then (mapGet presetValues v).getD []
      else
        match findFn v with
        | some p => parseFunctionValueF fuel p.1 p.2
        | none =>
          if unitGateMatch v then parseUnitValue v
          else if strStarts v (S "rgb(") ∨ strStarts v (S "rgba(") then v
          else if isHexColor v then hexToRgb v
          else if strEnds property (S "-enabled") then
            (if v = S "启用" then S "enabled" else S "disabled")
          else if property = S "avatar-layout-mode" then orD (mapGet layoutModeMap v) v
          else if property = S "info-layout-mode" then orD (mapGet infoLayoutModeMap v) v
          else if property = S "info-direction" then orD (mapGet directionMap v) v
          else if property = S "info-position" then orD (mapGet positionValueMapCN v) v
          else if property = S "avatar-position" then orD (mapGet positionValueMapCN v) v
          else v

/-- `parseFunctionValue(fnName, params)` (fuelled worker). -/
def parseFunctionValueF : Nat → Str → Str → Str
  | 0, _, params => params
  | fuel+1, fnName, params =>
    if fnName = S "缩放" then S "scale(" ++ params ++ S ")"
    else if fnName = S "旋转" then S "rotate(" ++ parseUnitValue params ++ S ")"
    else if fnName = S "移动" then S "translate(" ++ params ++ S ")"
    else if fnName = S "倾斜" then S "skew(" ++ params ++ S ")"
    else if fnName = S "矩阵" then S "matrix(" ++ params ++ S ")"
    else if fnName = S "模糊" then S "blur(" ++ parseUnitValue params ++ S ")"
    else if fnName = S "投影" then S "drop-shadow(" ++ params ++ S ")"
    else if fnName = S "亮度" then S "brightness(" ++ params ++ S ")"
    else if fnName = S "对比度" then S "contrast(" ++ params ++ S ")"
    else if fnName = S "饱和度" then S "saturate(" ++ params ++ S ")"
    else if fnName = S "色相" ∨ fnName = S "色相旋转" then
      S "hue-rotate(" ++ parseUnitValue params ++ S ")"
    else if fnName = S "灰度" then S "grayscale(" ++ params ++ S ")"
    else if fnName = S "反转" then S "invert(" ++ params ++ S ")"
    else if fnName = S "褐色" then S "sepia(" ++ params ++ S ")"
    else if fnName = S "渐变" ∨ fnName = S "线性渐变" then parseGradientF fuel params
    else if fnName = S "径向渐变" then parseRadialGradientF fuel params
    else if fnName = S "圆锥渐变" then parseConicGradientF fuel params
    else if fnName = S "计算" then S "calc(" ++ params ++ S ")"
    else if fnName = S "最小值" then S "min(" ++ params ++ S ")"
    else if fnName = S "最大值" then S "max(" ++ params ++ S ")"
    else if fnName = S "夹值" then S "clamp(" ++ params ++ S ")"
    else if fnName = S "变量" then S "var(" ++ params ++ S ")"
    else params

/-- `parseGradient(params)` (fuelled worker). -/
def parseGradientF : Nat → Str → Str
  | 0, params => params
  | fuel+1, params =>
    match splitOnSub sepTo params with
    | [a, b] =>
      S "linear-gradient(" ++ parseValueF fuel a (S "background") ++ S ", " ++
        parseValueF fuel b (S "background") ++ S ")"
    | _ => params

/-- `parseRadialGradient(params)` (fuelled worker). -/
def parseRadialGradientF : Nat → Str → Str
  | 0, params => params
  | fuel+1, params =>
    match splitOnSub sepTo params with
    | [a, b] =>
      S "radial-gradient(" ++ parseValueF fuel a (S "background") ++ S ", " ++
        parseValueF fuel b (S "background") ++ S ")"
    | _ => S "radial-gradient(" ++ params ++ S ")"

/-- `parseConicGradient(params)` (fuelled worker). -/
def parseConicGradientF : Nat → Str → Str
  | 0, params => params
  | fuel+1, params =>
    match splitOnSub sepTo params with
    | [a, b] =>
      S "conic-gradient(" ++ parseValueF fuel a (S "background") ++ S ", " ++
        parseValueF fuel b (S "background") ++ S ")"
    | _ => S "conic-gradient(" ++ params ++ S ")"

end

/-- `parseValue(value, property)`: entry point with sufficient fuel. -/
def parseValue (value property : Str) : Str :=
  parseValueF (value.length + 1) value property

/-- `parseFunctionValue(fnName, params)`: entry point with sufficient fuel. -/
def parseFunctionValue (fnName params : Str) : Str :=
  parseFunctionValueF (params.length + 1) fnName params

/-- `parseGradient(params)`: entry point with sufficient fuel. -/
def parseGradient (params : Str) : Str := parseGradientF (params.length + 1) params

/-! ## `formatValue` and helpers -/

/-- The `reverseModeMap` literal of the `avatar-layout-mode` branch. -/
def reverseModeMap : List (Str × Str) := objOf (strPairs
  [("none", "无"), ("squeeze", "挤压文字模式"), ("overlay", "悬浮模式")])

/-- The `reverseInfoModeMap` literal of the `info-layout-mode` branch. -/
def reverseInfoModeMap : List (Str × Str) := objOf (strPairs
  [("none", "无"), ("squeeze", "挤压文字模式"), ("overlay", "悬浮模式")])

/-- The `reverseDirectionMap` literal of the `info-direction` branch. -/
def reverseDirectionMap : List (Str × Str) := objOf (strPairs
  [("column", "竖列"), ("row", "横列")])

/-- The `reversePositionMap` literal: the `info-position` and
`avatar-position` branches each contain this identical table. -/
def reversePositionMapVals : List (Str × Str) := objOf (strPairs
  [("top-left", "顶部左"),
   ("top-center", "顶部中"),
   ("top-right", "顶部右"),
   ("left-top", "左边上"),
   ("left-middle", "左边中"),
   ("left-bottom", "左边下"),
   ("right-top", "右边上"),
   ("right-middle", "右边中"),
   ("right-bottom", "右边下"),
   ("bottom-left", "底部左"),
   ("bottom-center", "底部中"),
   ("bottom-right", "底部右")])

/-- The canonical units of the `unitMatch` regex of `formatValue`, in
alternation order. -/
def latinUnits : List Str := strList
  ["px", "%", "deg", "rad", "grad", "turn", "ms", "s", "em", "rem", "ch", "ex",
   "in", "cm", "mm", "pt", "pc", "vh", "vw", "vmin", "vmax", "fr", "Hz", "kHz",
   "dpi", "dpcm", "dppx"]

/-- Match of the `unitMatch` regex
`/^(\d+(?:\.\d+)?)(px|%|…)$/`, returning the numeral and the unit. -/
def latinUnitMatch (s : Str) : Option (Str × Str) :=
  match numSplit s with
  | some (num, rem) =>
    if latinUnits.any (fun u => decide (rem = u)) then some (num, rem) else none
  | none => none

/-- The canonical-unit to localized-unit object of `formatValue`. -/
def cnUnitMap : List (Str × Str) := objOf (strPairs
  [("px", "像素"),
   ("em", "字高"),
   ("rem", "根字高"),
   ("ch", "字符宽"),
   ("ex", "字符高"),
   ("in", "英寸"),
   ("cm", "厘米"),
   ("mm", "毫米"),
   ("pt", "点"),
   ("pc", "派卡"),
   ("vw", "视口宽"),
   ("vh", "视口高"),
   ("vmin", "视口最小"),
   ("vmax", "视口最大"),
   ("%", "百分比"),
   ("fr", "分数"),
   ("deg", "度"),
   ("rad", "弧度"),
   ("grad", "梯度"),
   ("turn", "圈"),
   ("s", "秒"),
   ("ms", "毫秒"),
   ("Hz", "赫兹"),
   ("kHz", "千赫兹"),
   ("dpi", "每英寸点数"),
   ("dpcm", "每厘米点数"),
   ("dppx", "每像素点数")])

/-- The `bgSizeMap` literal of `formatValue`. -/
def bgSizeMapVals : List (Str × Str) := objOf (strPairs
  [("contain", "包含"), ("cover", "覆盖"), ("auto", "自动")])

/-- The `positionMap` literal of `formatValue`. -/
def positionMapVals : List (Str × Str) := objOf (strPairs
  [("relative", "相对定位"),
   ("absolute", "绝对定位"),
   ("fixed", "固定定位"),
   ("sticky", "粘性定位"),
   ("static", "静态定位")])

/-- The `displayMap` literal of `formatValue`. -/
def displayMapVals : List (Str × Str) := objOf (strPairs
  [("block", "块级"),
   ("inline", "行内"),
   ("inline-block", "行内块"),
   ("flex", "弹性盒"),
   ("grid", "网格"),
   ("none", "无")])

/-- Lazy scan of `(.*?)\)` (no newline allowed before the closing paren);
returns the captured text and the remainder after the closing paren. -/
def scanInner2 : Str → Option (Str × Str)
  | [] => none
  | c :: t =>
    if c = ')' then some ([], t)
    else if c = '\n' then none
    else (scanInner2 t).map (fun p => (c :: p.1, p.2))

/-- The literal prefix of the `formatGradient` regex. -/
def lgOpen : Str := S "linear-gradient("

/-- First match of `/linear-gradient\((.*?)\)/` in a value. -/
def findLGInner : Str → Option Str
  | [] => none
  | c :: t =>
    if strStarts (c :: t) lgOpen then
      match scanInner2 ((c :: t).drop lgOpen.length) with
      | some p => some p.1
      | none => findLGInner t
    else findLGInner t

/-- `formatGradient(value)`. -/
def formatGradient (value : Str) : Str :=
  match findLGInner value with
  | some inner =>
    let params := (splitChars (· = ',') inner).map trim
    match params with
    | p0 :: p1 :: rest =>
      S "渐变(" ++ p0 ++ S " 到 " ++ (p0 :: p1 :: rest).getLast (by simp) ++ S ")"
    | _ => value
  | none => value

/-- `formatValue(value, property)` of the format parser. -/
def formatValue (value property : Str) : Str :=
  if property = [] then value
  else if value = S "transparent" then S "透明"
  else if value = S "none" then S "无"
  else if property = S "shadow-enabled" ∨ property = S "button-shadow-enabled" ∨
      property = S "icon-shadow-enabled" then
    (if value = S "enabled" then S "启用" else S "禁用")
  else if property = S "avatar-layout-mode" then orD (mapGet reverseModeMap value) value
  else if property = S "info-layout-mode" then orD (mapGet reverseInfoModeMap value) value
  else if property = S "info-direction" then orD (mapGet reverseDirectionMap value) value
  else if property = S "info-position" then orD (mapGet reversePositionMapVals value) value
  else if property = S "avatar-position" then orD (mapGet reversePositionMapVals value) value
  else if strStarts value (S "rgb(") ∨ strStarts value (S "rgba(") then value
  else if isHexColor value then hexToRgb value
  else
    match latinUnitMatch value with
    | some p => p.1 ++ orD (mapGet cnUnitMap p.2) p.2
    | none =>
      if strIncl value (S "gradient") then formatGradient value
      else if strIncl value (S "drop-shadow") then
        replaceFirst (S "drop-shadow") (S "投影") value
      else if truthyGet bgSizeMapVals value then (mapGet bgSizeMapVals value).getD []
      else if truthyGet positionMapVals value then (mapGet positionMapVals value).getD []
      else if truthyGet displayMapVals value then (mapGet displayMapVals value).getD []
      else value

/-! ## Localized-format parsing (`_actualParseChineseFormat`) -/

/-- A rule map: ordered selector → property map. -/
abbrev PropMap := List (Str × Str)

/-- A rule map: ordered selector → property map. -/
abbrev RuleMap := List (Str × PropMap)

/-- Loop state of `_actualParseChineseFormat`. -/
structure ChineseParseState where
  currentElement : Option Str
  currentStyles : PropMap
  styles : RuleMap

/-- The repeated flush `if (currentElement && Object.keys(currentStyles).length > 0)
styles.set(currentElement, {...currentStyles})`. -/
def flushStyles (st : ChineseParseState) : RuleMap :=
  match st.currentElement with
  | some el => if st.currentStyles ≠ [] then mapSet st.styles el st.currentStyles else st.styles
  | none => st.styles

/-- JS `Array.prototype.indexOf` over lines, with the `fromIndex` semantics
(negative values count from the end). -/
def jsIndexOf (l : List Str) (target : Str) (fromIdx : Int) : Int :=
  let start : Nat :=
    if fromIdx < 0 then
      (if (l.length : Int) + fromIdx < 0 then 0 else ((l.length : Int) + fromIdx).toNat)
    else fromIdx.toNat
  match (l.drop start).findIdx? (fun x => decide (x = target)) with
  | some i => ((start + i : Nat) : Int)
  | none => -1

/-- One iteration of the `for (let line of lines)` loop of
`_actualParseChineseFormat` (the surrounding `lines` array is needed for the
`lines.indexOf` calls of the `@`-block branch). -/
def chineseStep (allLines : List Str) (st : ChineseParseState) (rawLine : Str) :
    ChineseParseState :=
  let line := trim rawLine
  if strStarts line (S "@") ∧
      jsIndexOf allLines (S "\x7d") (jsIndexOf allLines line 0) ≠ -1 then st
  else if line = [] ∨ strStarts line (S "#") ∨ strStarts line (S "//") ∨
      strStarts line (S "/*") ∨ strIncl line (S "✨") ∨
      strIncl line (S "视觉样式配置") ∨ strIncl line (S "undefined") then st
  else if strEnds line (S "\x7b") then
    let flushed := flushStyles st
    let elementName := trim (replaceFirst (S "\x7b") [] line)
    { currentElement := some (getSelector elementName), currentStyles := [], styles := flushed }
  else if line = S "\x7d" then
    { currentElement := none, currentStyles := [], styles := flushStyles st }
  else
    match idxOf line ':' with
    | some ci =>
      if st.currentElement.isSome then
        let propName := trim (line.take ci)
        let propValue := trim (line.drop (ci + 1))
        if propName = [] ∨ propValue = [] then st
        else
          let cssProp := getProperty propName
          if cssProp ≠ [] then
            { st with currentStyles := mapSet st.currentStyles cssProp (parseValue propValue cssProp) }
          else st
      else st
    | none => st

/-- `_actualParseChineseFormat(input)`. -/
def actualParseChineseFormat (input : Str) : RuleMap :=
  let lines := splitLines input
  flushStyles (lines.foldl (chineseStep lines) ⟨none, [], []⟩)

/-! ## The `SmartCache` and the memoized `parseChineseFormat` -/

/-- The cache key `cssText.slice(0, 100) + '_' + cssText.length`. -/
def cacheKey (cssText : Str) : Str := cssText.take 100 ++ S "_" ++ natStr cssText.length

/-- The `SmartCache` instance state (`maxSize` is the constant 10). -/
structure SmartCacheState where
  cache : List (Str × RuleMap)

/-- `SmartCache.parseCSS(cssText, actualParseFunc)`, returning the result and
the updated cache. -/
def smartCacheParse (actualParseFunc : Str → RuleMap) (st : SmartCacheState)
    (cssText : Str) : RuleMap × SmartCacheState :=
  let key := cacheKey cssText
  match mapGet st.cache key with
  | some result => (result, st)
  | none =>
    let result := actualParseFunc cssText
    let c1 := mapSet st.cache key result
    let c2 :=
      if 10 < c1.length then
        match c1.head? with
        | some oldest => mapDelete c1 oldest.1
        | none => c1
      else c1
    (result, ⟨c2⟩)

/-- `parseChineseFormat(input)` (the cached entry point). -/
def parseChineseFormat (st : SmartCacheState) (input : Str) : RuleMap × SmartCacheState :=
  smartCacheParse actualParseChineseFormat st input

/-! ## Localized-format generation (`generateChineseFormat`) -/

/-- `detectCategory(selector)` of the format parser. -/
def detectCategory (selector : Str) : Str :=
  if strIncl selector (S ".mes") ∨ strIncl selector (S ".avatar") ∨
      strIncl selector (S ".ch_name") ∨ strIncl selector (S ".timestamp") then S "message"
  else if strIncl selector (S "#send") ∨ strIncl selector (S "textarea") ∨
      strIncl selector (S "#stop") then S "input"
  else if strIncl selector (S "#chat") ∨ strIncl selector (S "#top-bar") ∨
      strIncl selector (S ".drawer") ∨ selector = S "body" then S "layout"
  else if strIncl selector (S "button") ∨ strIncl selector (S ".swipe") ∨
      strIncl selector (S "scrollbar") then S "controls"
  else if strIncl selector (S "NavDrawerIcon") ∨ strIncl selector (S "Icon") then S "icons"
  else S "other"

/-- The fixed category key order of the `categories` object literal. -/
def categoryOrder : List Str := strList
  ["message", "input", "layout", "controls", "icons", "other"]

/-- `categorizeStyles(styles)`: a stable partition of the rules into the six
categories. -/
def categorizeStyles (styles : RuleMap) : List (Str × RuleMap) :=
  categoryOrder.map (fun cat => (cat, styles.filter (fun r => decide (detectCategory r.1 = cat))))

/-- The `titles` object of `getCategoryTitle`. -/
def categoryTitles : List (Str × Str) := objOf (strPairs
  [("message", "消息样式"),
   ("input", "输入样式"),
   ("layout", "布局样式"),
   ("controls", "控件样式"),
   ("icons", "图标样式"),
   ("other", "其他样式")])

/-- `getCategoryTitle(category)`. -/
def getCategoryTitle (category : Str) : Str := orD (mapGet categoryTitles category) (S "未分类")

/-- The per-rule part of the `generateChineseFormat` loop body. -/
def generateRuleCN (r : Str × PropMap) : Str :=
  let elementName :=
    if r.1 ≠ S "#leftNavDrawerIcon" ∧ r.1 ≠ S "#rightNavDrawerIcon" then
      getElementName r.1
    else r.1
  elementName ++ S " \x7b\n" ++
    (r.2.foldl (fun acc pv =>
      acc ++ S "  " ++ getPropertyName pv.1 ++ S ": " ++ formatValue pv.2 pv.1 ++ S "\n") []) ++
    S "\x7d\n"

/-- `generateChineseFormat(styles)`. -/
def generateChineseFormat (styles : RuleMap) : Str :=
  if styles = [] then []
  else
    let categorized := categorizeStyles styles
    let output := categorized.foldl (fun acc cr =>
      if cr.2 = [] then acc
      else
        acc ++ S "# " ++ getCategoryTitle cr.1 ++ S "\n" ++
          (cr.2.foldl (fun a r => a ++ generateRuleCN r) []) ++ S "\n") []
    trim output

/-! ## `CSSPreprocessor`: declaration translation and `parseStyles`

The preprocessor delegates to the format parser through `this.module.formatParser`,
which is always wired up by the main module; the embedding inlines that
delegation. -/

/-- The `decorationSpecificProps` literal of `translateProperty`. -/
def decorationSpecificProps : List (Str × Str) := objOf (strPairs
  [("是否超出父元素显示", "decoration-overflow-mode"),
   ("超出父元素", "decoration-overflow-mode")])

/-- `translateProperty(prop)`; `none` models the `null` return. -/
def translateProperty (prop : Str) : Option Str :=
  let result := getProperty prop
  if result ≠ prop then some result
  else if truthyGet decorationSpecificProps prop then mapGet decorationSpecificProps prop
  else if prop ≠ [] ∧ prop.all (fun c => (('a' ≤ c ∧ c ≤ 'z') ∨ c = '-')) then some prop
  else none

/-- Replacement of the first match of `/<cn>\((.*?)\)/` by `<en>($1)`. -/
def replaceFnCall (cn en : Str) : Str → Str
  | [] => []
  | c :: t =>
    if strStarts (c :: t) (cn ++ ['(']) then
      match scanInner2 ((c :: t).drop (cn ++ ['(']).length) with
      | some p => en ++ '(' :: (p.1 ++ ')' :: p.2)
      | none => c :: replaceFnCall cn en t
    else c :: replaceFnCall cn en t

/-- The `positionMap` literal of the preprocessor's `translateValue`. -/
def prePositionMap : List (Str × Str) := objOf (strPairs
  [("绝对", "absolute"),
   ("相对", "relative"),
   ("固定", "fixed"),
   ("静态", "static"),
   ("粘性", "sticky"),
   ("相对定位", "relative"),
   ("绝对定位", "absolute"),
   ("固定定位", "fixed")])

/-- The `repeatMap` literal of `translateValue`. -/
def repeatMap : List (Str × Str) := objOf (strPairs
  [("重复", "repeat"),
   ("不重复", "no-repeat"),
   ("横向重复", "repeat-x"),
   ("纵向重复", "repeat-y"),
   ("重复横向", "repeat-x"),
   ("重复纵向", "repeat-y"),
   ("空间", "space"),
   ("圆形", "round")])

/-- The `sizeMap` literal of `translateValue`. -/
def preSizeMap : List (Str × Str) := objOf (strPairs
  [("包含", "contain"), ("覆盖", "cover"), ("自动", "auto"), ("原始", "auto")])

/-- The `positionValueMap` literal of `translateValue`. -/
def bgPositionValueMap : List (Str × Str) := objOf (strPairs
  [("居中", "center"),
   ("中心", "center"),
   ("左侧", "left"),
   ("右侧", "right"),
   ("顶部", "top"),
   ("底部", "bottom"),
   ("左上", "left top"),
   ("右上", "right top"),
   ("左下", "left bottom"),
   ("右下", "right bottom"),
   ("中上", "center top"),
   ("中下", "center bottom"),
   ("左中", "left center"),
   ("右中", "right center")])

/-- The `attachmentMap` literal of `translateValue`. -/
def attachmentMap : List (Str × Str) := objOf (strPairs
  [("固定", "fixed"), ("滚动", "scroll"), ("本地", "local")])

/-- The `pointerMap` literal of `translateValue`. -/
def pointerMap : List (Str × Str) := objOf (strPairs
  [("无", "none"), ("自动", "auto"), ("禁用", "none"), ("启用", "auto")])

/-- The sequential unit replacements at the top of `translateValue`. -/
def preUnitReplace (value : Str) : Str :=
  replaceAllStr (S "度") (S "deg")
    (replaceAllStr (S "毫秒") (S "ms")
      (replaceAllStr (S "秒") (S "s")
        (replaceAllStr (S "百分号") (S "%")
          (replaceAllStr (S "百分比") (S "%")
            (replaceAllStr (S "像素") (S "px") value)))))

/-- `translateValue(value, property)` of the preprocessor. -/
def translateValue (value property : Str) : Str :=
  if property = S "decoration-overflow-mode" then
    if value = S "超出" ∨ value = S "允许超出" ∨ value = S "是" then S "allow-overflow"
    else S "contain"
  else if property = S "content" then
    (if value = [] ∨ value = S "空" ∨ value = S "无" then S "''" else value)
  else
    let processedValue := preUnitReplace value
    if property = S "position" ∧ truthyGet prePositionMap processedValue then
      (mapGet prePositionMap processedValue).getD []
    else if property = S "background-repeat" ∧ truthyGet repeatMap processedValue then
      (mapGet repeatMap processedValue).getD []
    else if property = S "background-size" then
      (if truthyGet preSizeMap processedValue then (mapGet preSizeMap processedValue).getD []
       else processedValue)
    else if property = S "background-position" then
      (if truthyGet bgPositionValueMap processedValue then
        (mapGet bgPositionValueMap processedValue).getD []
       else processedValue)
    else if property = S "background-attachment" ∧ truthyGet attachmentMap processedValue then
      (mapGet attachmentMap processedValue).getD []
    else if property = S "pointer-events" ∧ truthyGet pointerMap processedValue then
      (mapGet pointerMap processedValue).getD []
    else if property = S "transform" then
      replaceFnCall (S "倾斜") (S "skew")
        (replaceFnCall (S "移动") (S "translate")
          (replaceFnCall (S "偏移") (S "translate")
            (replaceFnCall (S "缩放") (S "scale")
              (replaceFnCall (S "旋转") (S "rotate") processedValue))))
    else if property = S "filter" then
      replaceFnCall (S "褐色") (S "sepia")
        (replaceFnCall (S "透明度") (S "opacity")
          (replaceFnCall (S "反转") (S "invert")
            (replaceFnCall (S "饱和度") (S "saturate")
              (replaceFnCall (S "色相旋转") (S "hue-rotate")
                (replaceFnCall (S "灰度") (S "grayscale")
                  (replaceFnCall (S "对比度") (S "contrast")
                    (replaceFnCall (S "亮度") (S "brightness")
                      (replaceFnCall (S "模糊") (S "blur") processedValue))))))))
    else if strStarts processedValue (S "rgb") then processedValue
    else
      let result := parseValue processedValue property
      if result ≠ [] then result else processedValue

/-- `parseStyles(styleText)` of the preprocessor. -/
def parseStyles (styleText : Str) : PropMap :=
  let declarations := splitChars (fun c => c = ';' ∨ c = '；' ∨ c = '\n') styleText
  declarations.foldl (fun styles declaration =>
    if trim declaration = [] then styles
    else
      let ci := match idxOf declaration ':' with
        | some i => some i
        | none => idxOf declaration '：'
      match ci with
      | none => styles
      | some colonIndex =>
        let prop := trim (declaration.take colonIndex)
        let value := trim (declaration.drop (colonIndex + 1))
        match translateProperty prop with
        | some cssProp =>
          let cssValue := translateValue value cssProp
          if cssProp ≠ [] ∧ cssValue ≠ [] then mapSet styles cssProp cssValue else styles
        | none => styles) []

/-! ## Decoration reconciliation over an abstract document

`document.querySelectorAll(sel)` is abstracted by a per-element list of the
selectors the element matches; synthetic decoration nodes live inside their
anchor element. -/

/-- A decoration rule as stored in `this.decorationRules` (the fields used by
reconciliation; `elementName`/`decorationName` only feed `id`/`className`). -/
structure DecorationRule where
  id : Str
  selector : Str
  styles : PropMap
  className : Str
deriving DecidableEq, Repr

/-- A synthetic decoration node (`div.ve-decoration.<className>` with
`data-decoration-id`). -/
structure SynNode where
  ruleId : Str
  className : Str
  styles : PropMap
  pointerNone : Bool
deriving DecidableEq, Repr

/-- A live anchor element: the selectors it matches, its decoration
membership record (`appliedDecorations`), its synthetic child nodes and the
inline styles the engine mutates. -/
structure DomElem where
  sels : List Str
  membership : List Str
  nodes : List SynNode
  computedPosition : Str
  stylePosition : Option Str
  styleOverflow : Option Str
deriving DecidableEq, Repr

/-- Whether an element is returned by `querySelectorAll(sel)`. -/
def matchesSel (e : DomElem) (sel : Str) : Bool := decide (sel ∈ e.sels)

/-- `applyStylesToElement(node, styles)` on a synthetic node: resets the
inline style, sets every pair, defaults `pointer-events` to `none`. -/
def applyStylesToNode (n : SynNode) (styles : PropMap) : SynNode :=
  { n with styles := styles, pointerNone := ¬ truthyGet styles (S "pointer-events") }

/-- `createDecorationElement(rule)`: filters the reserved pseudo-property and
defaults `pointer-events` to `none`. -/
def createDecorationElement (rule : DecorationRule) : SynNode :=
  let filteredStyles := rule.styles.filter (fun pv => decide (pv.1 ≠ S "decoration-overflow-mode"))
  { ruleId := rule.id, className := rule.className, styles := filteredStyles,
    pointerNone := ¬ truthyGet filteredStyles (S "pointer-events") }

/-- `removeDecoration(rule)` on one element: destroys every node tagged
`.<className>[data-decoration-id=<id>]` and, on elements matching the rule's
selector, erases the membership record. -/
def removeDecorationElem (rule : DecorationRule) (e : DomElem) : DomElem :=
  let kept := e.nodes.filter (fun n => decide (¬(n.className = rule.className ∧ n.ruleId = rule.id)))
  let e1 := { e with nodes := kept }
  if matchesSel e1 rule.selector then
    { e1 with membership := e1.membership.filter (fun i => decide (i ≠ rule.id)) }
  else e1

/-- `removeDecoration(rule)` over the whole document. -/
def removeDecoration (rule : DecorationRule) (doc : List DomElem) : List DomElem :=
  doc.map (removeDecorationElem rule)

/-- `element.querySelector('.' + className)` update path of `applyDecoration`. -/
def updateFirstNode (cls : Str) (styles : PropMap) : List SynNode → List SynNode
  | [] => []
  | n :: t => if n.className = cls then applyStylesToNode n styles :: t else n :: updateFirstNode cls styles t

/-- `applyDecoration(rule)` on one element. -/
def applyDecorationElem (rule : DecorationRule) (e : DomElem) : DomElem :=
  if ¬ matchesSel e rule.selector then e
  else if rule.id ∈ e.membership then
    { e with nodes := updateFirstNode rule.className rule.styles e.nodes }
  else
    let decoration := createDecorationElement rule
    let overflowMode := orD (mapGet rule.styles (S "decoration-overflow-mode")) (S "contain")
    if overflowMode = S "allow-overflow" then
      { e with styleOverflow := some (S "visible"),
               nodes := e.nodes ++ [decoration],
               membership := e.membership ++ [rule.id] }
    else
      let e1 :=
        if mapGet rule.styles (S "position") = some (S "absolute") ∧
            e.computedPosition = S "static" then
          { e with stylePosition := some (S "relative") }
        else e
      { e1 with styleOverflow := some (S "hidden"),
                nodes := e1.nodes ++ [decoration],
                membership := e1.membership ++ [rule.id] }

/-- `applyDecoration(rule)` over the whole document. -/
def applyDecoration (rule : DecorationRule) (doc : List DomElem) : List DomElem :=
  doc.map (applyDecorationElem rule)

/-- The `toRemove` list of `reconcileDecorations` (`oldRules` iteration order). -/
def reconcileToRemove (oldRules newRules : List (Str × DecorationRule)) : List DecorationRule :=
  (oldRules.filter (fun e => ¬ mapHas newRules e.1)).map (·.2)

/-- The `toAdd` list of `reconcileDecorations`. -/
def reconcileToAdd (oldRules newRules : List (Str × DecorationRule)) : List DecorationRule :=
  (newRules.filter (fun e => ¬ mapHas oldRules e.1)).map (·.2)

/-- The `toUpdate` list of `reconcileDecorations` (`JSON.stringify` on a
string-keyed, string-valued object is injective, so the stringify comparison
is ordered equality of the style maps). -/
def reconcileToUpdate (oldRules newRules : List (Str × DecorationRule)) : List DecorationRule :=
  (newRules.filter (fun e =>
    match mapGet oldRules e.1 with
    | some oldRule => decide (oldRule.styles ≠ e.2.styles)
    | none => false)).map (·.2)

/-- `reconcileDecorations(oldRules)` with `this.decorationRules = newRules`,
acting on the abstract document. -/
def reconcileDecorations (oldRules newRules : List (Str × DecorationRule))
    (doc : List DomElem) : List DomElem :=
  let d1 := (reconcileToRemove oldRules newRules).foldl (fun d r => removeDecoration r d) doc
  let d2 := (reconcileToUpdate oldRules newRules).foldl
    (fun d r => applyDecoration r (removeDecoration r d)) d1
  (reconcileToAdd oldRules newRules).foldl (fun d r => applyDecoration r d) d2

/-! ## `VisualEditorGenerator`: property sorting, shorthand merging, layout CSS -/

/-- The `propertyOrder` array of the generator. -/
def propertyOrder : List Str := strList
  ["position", "top", "right", "bottom", "left", "z-index",
   "display", "flex", "flex-direction", "flex-wrap", "justify-content", "align-items",
   "grid", "grid-template-columns", "grid-template-rows", "gap",
   "float", "clear",
   "width", "height", "min-width", "min-height", "max-width", "max-height",
   "margin", "margin-top", "margin-right", "margin-bottom", "margin-left",
   "padding", "padding-top", "padding-right", "padding-bottom", "padding-left",
   "border", "border-width", "border-style", "border-color",
   "border-top", "border-right", "border-bottom", "border-left",
   "border-radius", "border-top-left-radius", "border-top-right-radius",
   "border-bottom-left-radius", "border-bottom-right-radius",
   "outline", "outline-width", "outline-style", "outline-color",
   "background", "background-color", "background-image", "background-repeat",
   "background-position", "background-size", "background-attachment",
   "color", "font", "font-family", "font-size", "font-weight", "font-style",
   "line-height", "letter-spacing", "text-align", "text-decoration",
   "text-transform", "white-space", "word-break", "word-spacing",
   "opacity", "visibility", "overflow", "overflow-x", "overflow-y",
   "box-shadow", "text-shadow",
   "transform", "transition", "animation",
   "filter", "backdrop-filter",
   "cursor", "user-select", "pointer-events"]

/-- JS `Array.prototype.indexOf` result as an integer (`-1` when absent). -/
def arrIndexOf (l : List Str) (x : Str) : Int :=
  match l.findIdx? (fun y => decide (y = x)) with
  | some i => (i : Int)
  | none => -1

/-- `a.localeCompare(b)` modelled as code-point lexicographic comparison (the
compared keys are plain ASCII property names). -/
def lexCmp : Str → Str → Int
  | [], [] => 0
  | [], _ :: _ => -1
  | _ :: _, [] => 1
  | a :: as_, b :: bs => if a < b then -1 else if b < a then 1 else lexCmp as_ bs

/-- The comparator of `sortProperties`. -/
def propCmp (a b : Str × Str) : Int :=
  let indexA := arrIndexOf propertyOrder a.1
  let indexB := arrIndexOf propertyOrder b.1
  if indexA ≠ -1 ∧ indexB ≠ -1 then indexA - indexB
  else if indexA ≠ -1 then -1
  else if indexB ≠ -1 then 1
  else lexCmp a.1 b.1

/-- Stable insertion step of a comparator-based sort. -/
def insertCmp (cmp : α → α → Int) (x : α) : List α → List α
  | [] => [x]
  | y :: t => if cmp y x ≤ 0 then y :: insertCmp cmp x t else x :: y :: t

/-- `sortProperties(properties)`: JS `Array.prototype.sort` is stable, so the
result is the stable insertion sort under `propCmp`. -/
def sortProperties (properties : PropMap) : PropMap :=
  properties.foldl (fun acc e => insertCmp propCmp e acc) []

/-- The generator configuration (`this.config` merged with overrides). -/
structure GenConfig where
  minify : Bool
  useImportant : Bool
  groupBySelector : Bool
  sortProperties : Bool
  addComments : Bool
  indentSize : Nat
deriving DecidableEq, Repr

/-- The default `this.config` of the generator. -/
def defaultGenConfig : GenConfig :=
  { minify := false, useImportant := true, groupBySelector := true,
    sortProperties := true, addComments := true, indentSize := 2 }

/-- `generateRule(selector, properties, config)`. -/
def generateRule (selector : Str) (properties : PropMap) (cfg : GenConfig) : Str :=
  if properties = [] then []
  else
    let indent := if cfg.minify then [] else List.replicate cfg.indentSize ' '
    let newline := if cfg.minify then [] else S "\n"
    let space := if cfg.minify then [] else S " "
    let sortedProps := if cfg.sortProperties then sortProperties properties else properties
    let css := selector ++ space ++ S "\x7b" ++ newline
    let css := sortedProps.foldl (fun acc pv =>
      let important := if cfg.useImportant then S " !important" else []
      acc ++ indent ++ pv.1 ++ S ":" ++ space ++ pv.2 ++ important ++ S ";" ++ newline) css
    css ++ S "\x7d" ++ newline

/-- `canMergeBox(properties, prefix)`. -/
def canMergeBox (properties : PropMap) (pfx : Str) : Bool :=
  [S "top", S "right", S "bottom", S "left"].all
    (fun side => mapHas properties (pfx ++ S "-" ++ side))

/-- Rendering of a JS value in a template literal (`undefined` prints as such). -/
def jsTmpl (v : Option Str) : Str := v.getD (S "undefined")

/-- `mergeBox(properties, prefix)` (`none` models the undefined case of
`return t` when the sides are absent). -/
def mergeBox (properties : PropMap) (pfx : Str) : Option Str :=
  let t := mapGet properties (pfx ++ S "-top")
  let r := mapGet properties (pfx ++ S "-right")
  let b := mapGet properties (pfx ++ S "-bottom")
  let l := mapGet properties (pfx ++ S "-left")
  if t = r ∧ t = b ∧ t = l then t
  else if t = b ∧ r = l then some (jsTmpl t ++ S " " ++ jsTmpl r)
  else if r = l then some (jsTmpl t ++ S " " ++ jsTmpl r ++ S " " ++ jsTmpl b)
  else some (jsTmpl t ++ S " " ++ jsTmpl r ++ S " " ++ jsTmpl b ++ S " " ++ jsTmpl l)

/-- JS truthiness of an optional string. -/
def truthyOpt : Option Str → Bool
  | some s => s ≠ []
  | none => false

/-- `canMergeBorder(properties)`. -/
def canMergeBorder (properties : PropMap) : Bool :=
  mapHas properties (S "border-width") ∧ mapHas properties (S "border-style") ∧
    mapHas properties (S "border-color")

/-- `mergeBorder(properties)`. -/
def mergeBorder (properties : PropMap) : Option Str :=
  let width := mapGet properties (S "border-width")
  let style := mapGet properties (S "border-style")
  let color := mapGet properties (S "border-color")
  if truthyOpt width ∧ truthyOpt style ∧ truthyOpt color then
    some (jsTmpl width ++ S " " ++ jsTmpl style ++ S " " ++ jsTmpl color)
  else none

/-- `mergeProperties(properties)`. -/
def mergeProperties (properties : PropMap) : PropMap :=
  let merged := properties
  let merged :=
    if canMergeBox merged (S "margin") then
      match mergeBox merged (S "margin") with
      | some value =>
        if value ≠ [] then
          mapDelete (mapDelete (mapDelete (mapDelete
            (mapSet merged (S "margin") value)
            (S "margin-top")) (S "margin-right")) (S "margin-bottom")) (S "margin-left")
        else merged
      | none => merged
    else merged
  let merged :=
    if canMergeBox merged (S "padding") then
      match mergeBox merged (S "padding") with
      | some value =>
        if value ≠ [] then
          mapDelete (mapDelete (mapDelete (mapDelete
            (mapSet merged (S "padding") value)
            (S "padding-top")) (S "padding-right")) (S "padding-bottom")) (S "padding-left")
        else merged
      | none => merged
    else merged
  if canMergeBorder merged then
    match mergeBorder merged with
    | some value =>
      if value ≠ [] then
        mapDelete (mapDelete (mapDelete
          (mapSet merged (S "border") value)
          (S "border-width")) (S "border-style")) (S "border-color")
      else merged
    | none => merged
  else merged

/-- `removeRedundant(properties)`. -/
def removeRedundant (properties : PropMap) : PropMap :=
  let cleaned := properties
  let cleaned :=
    if truthyGet cleaned (S "border") then
      mapDelete (mapDelete (mapDelete (mapDelete (mapDelete (mapDelete (mapDelete cleaned
        (S "border-width")) (S "border-style")) (S "border-color"))
        (S "border-top")) (S "border-right")) (S "border-bottom")) (S "border-left")
    else cleaned
  let cleaned :=
    if truthyGet cleaned (S "margin") then
      mapDelete (mapDelete (mapDelete (mapDelete cleaned
        (S "margin-top")) (S "margin-right")) (S "margin-bottom")) (S "margin-left")
    else cleaned
  let cleaned :=
    if truthyGet cleaned (S "padding") then
      mapDelete (mapDelete (mapDelete (mapDelete cleaned
        (S "padding-top")) (S "padding-right")) (S "padding-bottom")) (S "padding-left")
    else cleaned
  let bgBlocks : Bool := match mapGet cleaned (S "background") with
    | some v => decide (v ≠ []) && !(strIncl v (S "gradient"))
    | none => false
  if bgBlocks then
    mapDelete (mapDelete (mapDelete (mapDelete (mapDelete cleaned
      (S "background-color")) (S "background-image")) (S "background-repeat"))
      (S "background-position")) (S "background-size")
  else cleaned

/-- `optimize(styleRules)`: the shorthand-merge pre-pass of the generator. -/
def optimize (styleRules : RuleMap) : RuleMap :=
  styleRules.foldl (fun acc r =>
    let merged := mergeProperties r.2
    let cleaned := removeRedundant merged
    if cleaned ≠ [] then mapSet acc r.1 cleaned else acc) []

/-- `Object.assign(target, source)` for style objects. -/
def objAssign (target source : PropMap) : PropMap :=
  source.foldl (fun acc e => mapSet acc e.1 e.2) target

/-- `getOverlayPositions(position, offsetX, offsetY)` (the position may be
`undefined`, which falls to the default case). -/
def getOverlayPositions (position : Option Str) (offsetX offsetY : Str) : PropMap :=
  if position = some (S "top-left") then
    mapSet (mapSet [] (S "top") (S "calc(-30px + " ++ offsetY ++ S ")"))
      (S "left") (S "calc(0px + " ++ offsetX ++ S ")")
  else if position = some (S "top-center") then
    mapSet (mapSet (mapSet [] (S "top") (S "calc(-30px + " ++ offsetY ++ S ")"))
      (S "left") (S "50%"))
      (S "transform") (S "translateX(-50%) translateX(" ++ offsetX ++ S ")")
  else if position = some (S "top-right") then
    mapSet (mapSet [] (S "top") (S "calc(-30px + " ++ offsetY ++ S ")"))
      (S "right") (S "calc(0px - " ++ offsetX ++ S ")")
  else if position = some (S "right-top") then
    mapSet (mapSet [] (S "top") (S "calc(0px + " ++ offsetY ++ S ")"))
      (S "right") (S "calc(-30px - " ++ offsetX ++ S ")")
  else if position = some (S "right-middle") then
    mapSet (mapSet (mapSet [] (S "top") (S "50%"))
      (S "right") (S "calc(-30px - " ++ offsetX ++ S ")"))
      (S "transform") (S "translateY(-50%) translateY(" ++ offsetY ++ S ")")
  else if position = some (S "right-bottom") then
    mapSet (mapSet [] (S "bottom") (S "calc(0px - " ++ offsetY ++ S ")"))
      (S "right") (S "calc(-30px - " ++ offsetX ++ S ")")
  else if position = some (S "left-top") then
    mapSet (mapSet [] (S "top") (S "calc(0px + " ++ offsetY ++ S ")"))
      (S "left") (S "calc(-30px + " ++ offsetX ++ S ")")
  else if position = some (S "left-middle") then
    mapSet (mapSet (mapSet [] (S "top") (S "50%"))
      (S "left") (S "calc(-30px + " ++ offsetX ++ S ")"))
      (S "transform") (S "translateY(-50%) translateY(" ++ offsetY ++ S ")")
  else if position = some (S "left-bottom") then
    mapSet (mapSet [] (S "bottom") (S "calc(0px - " ++ offsetY ++ S ")"))
      (S "left") (S "calc(-30px + " ++ offsetX ++ S ")")
  else if position = some (S "bottom-left") then
    mapSet (mapSet [] (S "bottom") (S "calc(-30px + " ++ offsetY ++ S ")"))
      (S "left") (S "calc(0px + " ++ offsetX ++ S ")")
  else if position = some (S "bottom-center") then
    mapSet (mapSet (mapSet [] (S "bottom") (S "calc(-30px + " ++ offsetY ++ S ")"))
      (S "left") (S "50%"))
      (S "transform") (S "translateX(-50%) translateX(" ++ offsetX ++ S ")")
  else if position = some (S "bottom-right") then
    mapSet (mapSet [] (S "bottom") (S "calc(-30px + " ++ offsetY ++ S ")"))
      (S "right") (S "calc(0px - " ++ offsetX ++ S ")")
  else
    mapSet (mapSet [] (S "bottom") (S "calc(-30px + " ++ offsetY ++ S ")"))
      (S "right") (S "calc(20px + " ++ offsetX ++ S ")")

/-- `getSqueezePositions(position, offsetX, offsetY)`; the comment in the
source notes that `transform` is deliberately not touched here. -/
def getSqueezePositions (position : Option Str) (offsetX offsetY : Str) : PropMap :=
  let css := mapSet (mapSet (mapSet (mapSet (mapSet (mapSet (mapSet []
    (S "position") (S "static"))
    (S "display") (S "flex"))
    (S "top") (S "auto"))
    (S "right") (S "auto"))
    (S "bottom") (S "auto"))
    (S "left") (S "auto"))
    (S "z-index") (S "auto")
  let css :=
    match position with
    | some p =>
      if p = [] then css
      else
        let css :=
          if strIncl p (S "top") then mapSet css (S "align-self") (S "flex-start")
          else if strIncl p (S "middle") ∨ strIncl p (S "center") then
            mapSet css (S "align-self") (S "center")
          else if strIncl p (S "bottom") then mapSet css (S "align-self") (S "flex-end")
          else css
        if strStarts p (S "top-") ∨ strStarts p (S "bottom-") then
          if strEnds p (S "-left") then mapSet css (S "justify-self") (S "flex-start")
          else if strEnds p (S "-center") then mapSet css (S "justify-self") (S "center")
          else if strEnds p (S "-right") then mapSet css (S "justify-self") (S "flex-end")
          else css
        else css
    | none => css
  if offsetX ≠ S "0px" ∨ offsetY ≠ S "0px" then
    mapSet (mapSet css (S "margin-left") offsetX) (S "margin-top") offsetY
  else css

/-- `generateAvatarLayoutCSS(properties)`. -/
def generateAvatarLayoutCSS (properties : PropMap) : PropMap :=
  let layoutMode := mapGet properties (S "avatar-layout-mode")
  let position := mapGet properties (S "avatar-position")
  let offsetX := orD (mapGet properties (S "avatar-offset-x")) (S "0px")
  let offsetY := orD (mapGet properties (S "avatar-offset-y")) (S "0px")
  let rotate := orD (mapGet properties (S "avatar-rotate")) (S "0deg")
  let css : PropMap := []
  let css :=
    if layoutMode = some (S "overlay") then
      objAssign (mapSet (mapSet css (S "position") (S "absolute")) (S "z-index") (S "10"))
        (getOverlayPositions position offsetX offsetY)
    else if layoutMode = some (S "squeeze") then
      objAssign (mapSet css (S "position") (S "static"))
        (getSqueezePositions position offsetX offsetY)
    else css
  if layoutMode = some (S "squeeze") then
    if rotate ≠ S "0deg" then mapSet css (S "transform") (S "rotate(" ++ rotate ++ S ")")
    else mapSet css (S "transform") (S "none")
  else if rotate ≠ S "0deg" then
    mapSet css (S "transform")
      (if truthyGet css (S "transform") then
        (mapGet css (S "transform")).getD [] ++ S " rotate(" ++ rotate ++ S ")"
       else S "rotate(" ++ rotate ++ S ")")
  else css

/-- `generateInfoLayoutCSS(properties)`. -/
def generateInfoLayoutCSS (properties : PropMap) : PropMap :=
  let layoutMode := mapGet properties (S "info-layout-mode")
  let position := mapGet properties (S "info-position")
  let direction := orD (mapGet properties (S "info-direction")) (S "column")
  let offsetX := orD (mapGet properties (S "info-offset-x")) (S "0px")
  let offsetY := orD (mapGet properties (S "info-offset-y")) (S "0px")
  let rotate := orD (mapGet properties (S "info-rotate")) (S "0deg")
  let css : PropMap := []
  let css :=
    if layoutMode = some (S "overlay") then
      objAssign (mapSet (mapSet (mapSet (mapSet css
        (S "position") (S "absolute"))
        (S "z-index") (S "10"))
        (S "display") (S "flex"))
        (S "flex-direction") direction)
        (getOverlayPositions position offsetX offsetY)
    else if layoutMode = some (S "squeeze") then
      objAssign (mapSet (mapSet (mapSet css
        (S "position") (S "static"))
        (S "display") (S "flex"))
        (S "flex-direction") direction)
        (getSqueezePositions position offsetX offsetY)
    else css
  if layoutMode = some (S "squeeze") then
    if rotate ≠ S "0deg" then mapSet css (S "transform") (S "rotate(" ++ rotate ++ S ")")
    else mapSet css (S "transform") (S "none")
  else if rotate ≠ S "0deg" then
    mapSet css (S "transform")
      (if truthyGet css (S "transform") then
        (mapGet css (S "transform")).getD [] ++ S " rotate(" ++ rotate ++ S ")"
       else S "rotate(" ++ rotate ++ S ")")
  else css

/-! ## `VisualEditorParser.parseCSSText` -/

/-- `/\s*!important\s*$/` removal of `normalizeValue` (first match only). -/
def stripImportant (value : Str) : Str :=
  let r := value.reverse
  let r1 := r.dropWhile Char.isWhitespace
  if (S "!important").reverse.isPrefixOf r1 then
    ((r1.drop 10).dropWhile Char.isWhitespace).reverse
  else value

/-- Structural worker for `replace(/\s+/g, ' ')`: the flag records being
inside a whitespace run whose single `' '` was already emitted. -/
def collapseWsGo : Bool → Str → Str
  | _, [] => []
  | inRun, c :: t =>
    if c.isWhitespace then
      (if inRun then collapseWsGo true t else ' ' :: collapseWsGo true t)
    else c :: collapseWsGo false t

/-- `replace(/\s+/g, ' ')`. -/
def collapseWs (s : Str) : Str := collapseWsGo false s

/-- `normalizeValue(value)`. -/
def normalizeValue (value : Str) : Str :=
  let v1 := stripImportant value
  let v2 := collapseWs (trim v1)
  v2.map (fun c => if c = '"' ∨ c = '\'' then '"' else c)

/-- `parseDeclarations(declarations)`. -/
def parseDeclarations (declarations : Str) : PropMap :=
  let parts := (splitChars (· = ';') declarations).filter (fun p => decide (trim p ≠ []))
  parts.foldl (fun properties part =>
    match idxOf part ':' with
    | some ci =>
      if 0 < ci then
        let property := trim (part.take ci)
        let value := trim (part.drop (ci + 1))
        if property ≠ [] ∧ value ≠ [] then mapSet properties property (normalizeValue value)
        else properties
      else properties
    | none => properties) []

/-- Scan of `[^{]*\{`: the run of non-`{` characters and the rest after the
first `{` (or `none` when the text has no `{`). -/
def scanToBrace : Str → Option (Str × Str)
  | [] => none
  | c :: t =>
    if c = '\x7b' then some ([], t)
    else (scanToBrace t).map (fun p => (c :: p.1, p.2))

/-- Scan of `[^}]*\}` after an opening brace. -/
def scanToCloseBrace : Str → Option (Str × Str)
  | [] => none
  | c :: t =>
    if c = '\x7d' then some ([], t)
    else (scanToCloseBrace t).map (fun p => (c :: p.1, p.2))

theorem scanToBrace_length {s pre tail : Str} (h : scanToBrace s = some (pre, tail)) :
    pre.length + 1 + tail.length = s.length := by
  induction s generalizing pre tail with
  | nil => simp [scanToBrace] at h
  | cons c t ih =>
    simp only [scanToBrace] at h
    split at h
    · cases h
      simp only [List.length_nil, List.length_cons]
      omega
    · cases hm : scanToBrace t with
      | none => rw [hm] at h; cases h
      | some p =>
        rw [hm] at h
        cases h
        have := @ih p.1 p.2 (by rw [hm])
        simp only [List.length_cons]
        omega

theorem scanToCloseBrace_length {s pre tail : Str}
    (h : scanToCloseBrace s = some (pre, tail)) :
    pre.length + 1 + tail.length = s.length := by
  induction s generalizing pre tail with
  | nil => simp [scanToCloseBrace] at h
  | cons c t ih =>
    simp only [scanToCloseBrace] at h
    split at h
    · cases h
      simp only [List.length_nil, List.length_cons]
      omega
    · cases hm : scanToCloseBrace t with
      | none => rw [hm] at h; cases h
      | some p =>
        rw [hm] at h
        cases h
        have := @ih p.1 p.2 (by rw [hm])
        simp only [List.length_cons]
        omega

/-- One step of the `ruleRegex = /([^{]+)\{([^}]+)\}/g` exec loop (fuelled
worker; the resumption point is always strictly shorter, so fuel above the
text's length makes the out-of-fuel fallback unreachable): the leftmost
match as (selector text, declaration text, rest after the match). -/
def findRuleF : Nat → Str → Option (Str × Str × Str)
  | 0, _ => none
  | fuel+1, s =>
    match scanToBrace s with
    | none => none
    | some (pre, tail) =>
      if pre = [] then findRuleF fuel tail
      else
        match scanToCloseBrace tail with
        | none => none
        | some (body, after) =>
          if body = [] then findRuleF fuel tail
          else some (pre, body, after)

/-- The leftmost `ruleRegex` match, with sufficient fuel. -/
def findRule (s : Str) : Option (Str × Str × Str) := findRuleF (s.length + 1) s

theorem findRuleF_after_lt :
    ∀ {fuel : Nat} {s pre body after : Str},
      findRuleF fuel s = some (pre, body, after) → after.length < s.length := by
  intro fuel
  induction fuel with
  | zero => intro s p b a h; cases h
  | succ n ih =>
    intro s p b a h
    rw [findRuleF] at h
    cases hsb : scanToBrace s with
    | none => rw [hsb] at h; cases h
    | some pr =>
      obtain ⟨pre, tail⟩ := pr
      rw [hsb] at h
      dsimp only at h
      by_cases hpre : pre = []
      · rw [if_pos hpre] at h
        have h1 := ih h
        have h2 := scanToBrace_length hsb
        omega
      · rw [if_neg hpre] at h
        cases hb : scanToCloseBrace tail with
        | none => rw [hb] at h; cases h
        | some pb =>
          obtain ⟨body2, after2⟩ := pb
          rw [hb] at h
          dsimp only at h
          by_cases hbody : body2 = []
          · rw [if_pos hbody] at h
            have h1 := ih h
            have h2 := scanToBrace_length hsb
            omega
          · rw [if_neg hbody] at h
            cases h
            have h2 := scanToBrace_length hsb
            have h3 := scanToCloseBrace_length hb
            omega

theorem findRule_after_lt {s pre body after : Str}
    (h : findRule s = some (pre, body, after)) : after.length < s.length :=
  findRuleF_after_lt h

/-- The `while ((match = ruleRegex.exec(cssText)) !== null)` loop of
`parseCSSText` (fuelled worker; each iteration resumes on a strictly shorter
rest, so fuel above the text's length makes the out-of-fuel fallback
unreachable). -/
def parseCSSLoopF : Nat → Str → RuleMap → RuleMap
  | 0, _, rules => rules
  | fuel+1, s, rules =>
    match findRule s with
    | some m =>
      let selector := trim m.1
      let declarations := trim m.2.1
      let rules' :=
        if selector ≠ [] ∧ declarations ≠ [] then
          let properties := parseDeclarations declarations
          if properties ≠ [] then mapSet rules selector properties else rules
        else rules
      parseCSSLoopF fuel m.2.2 rules'
    | none => rules

/-- `parseCSSText(cssText)` of `VisualEditorParser`. -/
def parseCSSText (cssText : Str) : RuleMap := parseCSSLoopF (cssText.length + 1) cssText []

/-! ## Generic lemmas about the map operations -/

theorem mapGet_mapSet_self (m : List (Str × α)) (k : Str) (v : α) :
    mapGet (mapSet m k v) k = some v := by
  induction m with
  | nil => simp [mapSet, mapGet, List.find?]
  | cons e t ih =>
    obtain ⟨k', v'⟩ := e
    simp only [mapSet]
    by_cases h : k' = k
    · subst h
      simp [mapGet, List.find?]
    · rw [if_neg h]
      simp only [mapGet, List.find?] at ih ⊢
      rw [decide_eq_false h]
      exact ih

theorem mapGet_mapSet_ne (m : List (Str × α)) {k k' : Str} (v : α) (h : k' ≠ k) :
    mapGet (mapSet m k v) k' = mapGet m k' := by
  induction m with
  | nil => simp [mapSet, mapGet, List.find?, decide_eq_false (fun (he : k = k') => h he.symm)]
  | cons e t ih =>
    obtain ⟨k2, v2⟩ := e
    simp only [mapSet]
    by_cases h2 : k2 = k
    · rw [if_pos h2]
      subst h2
      simp only [mapGet, List.find?, decide_eq_false (fun (he : k2 = k') => h he.symm)]
    · rw [if_neg h2]
      simp only [mapGet, List.find?]
      cases hd : decide (k2 = k') with
      | true => simp
      | false =>
        simp only [mapGet] at ih
        exact ih

theorem mem_mapSet {m : List (Str × α)} {k : Str} {v : α} {e : Str × α}
    (h : e ∈ mapSet m k v) : e ∈ m ∨ e = (k, v) := by
  induction m with
  | nil => simpa [mapSet] using h
  | cons e' t ih =>
    obtain ⟨k', v'⟩ := e'
    simp only [mapSet] at h
    by_cases h2 : k' = k
    · rw [if_pos h2] at h
      subst h2
      rcases List.mem_cons.mp h with h3 | h3
      · right; exact h3
      · left; exact List.mem_cons_of_mem _ h3
    · rw [if_neg h2] at h
      rcases List.mem_cons.mp h with h3 | h3
      · left; exact h3 ▸ List.mem_cons_self _ _
      · rcases ih h3 with h4 | h4
        · left; exact List.mem_cons_of_mem _ h4
        · right; exact h4

theorem mapGet_none_of_truthyGet_false {m : List (Str × Str)} {x : Str}
    (hinv : ∀ e ∈ m, e.2 ≠ []) (h : truthyGet m x = false) : mapGet m x = none := by
  cases hv : mapGet m x with
  | none => rfl
  | some v =>
    exfalso
    have hmem : ∃ e ∈ m, e.2 = v := by
      unfold mapGet at hv
      cases hf : m.find? (fun e => decide (e.1 = x)) with
      | none => rw [hf] at hv; cases hv
      | some e =>
        rw [hf] at hv
        cases hv
        exact ⟨e, List.mem_of_find?_eq_some hf, rfl⟩
    obtain ⟨e, he, hev⟩ := hmem
    have hne := hinv e he
    unfold truthyGet at h
    rw [hv] at h
    simp only [ne_eq, decide_not] at h
    rw [hev] at hne
    simp [hne] at h

/-- First-registration semantics of the guarded reverse-map construction. -/
theorem revFirst_get (l : List (Str × Str)) :
    ∀ (m0 : List (Str × Str)) (k : Str), (∀ e ∈ l, e.1 ≠ []) → (∀ e ∈ m0, e.2 ≠ []) →
      mapGet (l.foldl (fun m e => if truthyGet m e.2 then m else mapSet m e.2 e.1) m0) k =
        (match mapGet m0 k with
         | some v => some v
         | none => (l.find? (fun e => decide (e.2 = k))).map (·.1)) := by
  induction l with
  | nil =>
    intro m0 k _ _
    simp only [List.foldl_nil, List.find?_nil, Option.map_none']
    cases hm : mapGet m0 k <;> simp
  | cons e rest ih =>
    intro m0 k hl hinv
    simp only [List.foldl_cons]
    have he1 : e.1 ≠ [] := hl e (List.mem_cons_self _ _)
    have hl' : ∀ e2 ∈ rest, e2.1 ≠ [] := fun e2 he2 => hl e2 (List.mem_cons_of_mem _ he2)
    by_cases ht : truthyGet m0 e.2 = true
    · rw [if_pos ht]
      rw [ih m0 k hl' hinv]
      cases hm : mapGet m0 k with
      | some v => rfl
      | none =>
        by_cases hek : e.2 = k
        · exfalso
          rw [hek] at ht
          unfold truthyGet at ht
          rw [hm] at ht
          cases ht
        · simp only [List.find?_cons, decide_eq_false hek]
    · rw [if_neg ht]
      have hm0 : mapGet m0 e.2 = none :=
        mapGet_none_of_truthyGet_false hinv (Bool.not_eq_true _ ▸ eq_false_of_ne_true ht)
      have hinv' : ∀ e2 ∈ mapSet m0 e.2 e.1, e2.2 ≠ [] := by
        intro e2 he2
        rcases mem_mapSet he2 with h3 | h3
        · exact hinv e2 h3
        · rw [h3]; exact he1
      rw [ih _ k hl' hinv']
      by_cases hek : e.2 = k
      · subst hek
        rw [mapGet_mapSet_self, hm0]
        have hfind : List.find? (fun x => decide (x.2 = e.2)) (e :: rest) = some e :=
          List.find?_cons_of_pos _ (by simp)
        simp [hfind]
      · rw [mapGet_mapSet_ne _ _ (fun he => hek he.symm)]
        cases hm : mapGet m0 k with
        | some v => rfl
        | none => simp only [List.find?_cons, decide_eq_false hek]

/-- Last-assignment semantics of the unguarded reverse-map construction. -/
theorem revLast_get (l : List (Str × Str)) :
    ∀ (m0 : List (Str × Str)) (k : Str),
      mapGet (l.foldl (fun m e => mapSet m e.2 e.1) m0) k =
        (match (l.reverse.find? (fun e => decide (e.2 = k))).map (·.1) with
         | some v => some v
         | none => mapGet m0 k) := by
  induction l with
  | nil =>
    intro m0 k
    simp only [List.foldl_nil, List.reverse_nil, List.find?_nil, Option.map_none']
  | cons e rest ih =>
    intro m0 k
    simp only [List.foldl_cons]
    rw [ih]
    simp only [List.reverse_cons, List.find?_append]
    cases hf : rest.reverse.find? (fun e => decide (e.2 = k)) with
    | some a => simp [hf]
    | none =>
      simp only [hf, Option.none_or, Option.map_none']
      by_cases hek : e.2 = k
      · subst hek
        have hfind : List.find? (fun x => decide (x.2 = e.2)) [e] = some e :=
          List.find?_cons_of_pos _ (by simp)
        simp only [hfind, Option.map_some']
        rw [mapGet_mapSet_self]
      · have hfind : List.find? (fun x => decide (x.2 = k)) [e] = none := by
          rw [List.find?_cons_of_neg _ (by simp [hek]), List.find?_nil]
        simp only [hfind, Option.map_none']
        rw [mapGet_mapSet_ne _ _ (fun he => hek he.symm)]

/-! ## C6: reverse alias maps and first registration -/

/-- C6 counterexample: the reverse element map does not resolve to the
first-registered alias.  For the selector `.mes[is_user="false"] .avatar`
the first-enumerated alias of `elementMap` is `角色头像`, but the reverse
map (built by unguarded assignment) holds the later alias `AI角色头像`. -/
theorem c6_reverse_element_not_first :
    mapGet reverseElementMap (S ".mes[is_user=\"false\"] .avatar") = some (S "AI角色头像") ∧
    (elementMap.find? (fun e => decide (e.2 = S ".mes[is_user=\"false\"] .avatar"))).map (·.1) =
      some (S "角色头像") ∧
    (S "AI角色头像" : Str) ≠ S "角色头像" := ⟨rfl, rfl, by decide⟩

/-- C6 amended: the reverse property map resolves every canonical property
to the first-registered localized alias (the guarded construction), while
the reverse element map resolves every selector to the last-enumerated
localized alias (plain assignment overwrites earlier ones). -/
theorem c6_reverse_alias_resolution :
    (∀ p : Str, mapGet reversePropertyMap p =
      (propertyMap.find? (fun e => decide (e.2 = p))).map (·.1)) ∧
    (∀ sel : Str, mapGet reverseElementMap sel =
      (elementMap.reverse.find? (fun e => decide (e.2 = sel))).map (·.1)) := by
  constructor
  · intro p
    have h := revFirst_get propertyMap [] p (by decide) (by intro e he; cases he)
    unfold reversePropertyMap
    rw [h]
    rfl
  · intro sel
    have h := revLast_get elementMap [] sel
    unfold reverseElementMap
    rw [h]
    cases hx : elementMap.reverse.find? (fun e => decide (e.2 = sel)) with
    | some a => simp [hx]
    | none => simp [hx, mapGet, List.find?]

/-! ## C4: cache transparency -/

/-- A comment line longer than the 100-character cache-signature window. -/
def c4pad : Str := S "//" ++ List.replicate 110 'x' ++ S "\n"

/-- First input: parses to `color: red`. -/
def c4input1 : Str := c4pad ++ S "消息文本 \x7b\n文字颜色: red\n\x7d"

/-- Second input: same signature (first 100 characters and length), parses
to `color: blu`. -/
def c4input2 : Str := c4pad ++ S "消息文本 \x7b\n文字颜色: blu\n\x7d"

/-- C4 counterexample: the memoized parser is not transparent.  The two
inputs share the cache signature (same first 100 characters and same
length) but parse differently; after parsing the first, the cached parser
returns the first input's RuleMap for the second. -/
theorem c4_cache_not_transparent :
    cacheKey c4input1 = cacheKey c4input2 ∧
    actualParseChineseFormat c4input1 ≠ actualParseChineseFormat c4input2 ∧
    (parseChineseFormat (parseChineseFormat ⟨[]⟩ c4input1).2 c4input2).1 ≠
      actualParseChineseFormat c4input2 := by
  refine ⟨rfl, ?_, ?_⟩
  · decide
  · decide

/-- C4 amended: caching never changes the parse result unless a previously
cached input collides on the signature with a different result — whenever
the cache holds no entry under the input's signature with a RuleMap other
than the uncached parse, `parseChineseFormat` returns exactly
`_actualParseChineseFormat(input)`; eviction only removes entries and can
never change a returned result. -/
theorem c4_cache_transparent_amended (st : SmartCacheState) (input : Str)
    (h : ∀ r, mapGet st.cache (cacheKey input) = some r →
      r = actualParseChineseFormat input) :
    (parseChineseFormat st input).1 = actualParseChineseFormat input := by
  unfold parseChineseFormat smartCacheParse
  cases hc : mapGet st.cache (cacheKey input) with
  | some r =>
    simp only [hc]
    exact h r hc
  | none => simp only [hc]

/-- Witness for C4 amended, at the empty cache and a concrete input. -/
theorem c4_cache_transparent_amended_witness :
    (∀ r, mapGet (SmartCacheState.mk []).cache (cacheKey c4input2) = some r →
      r = actualParseChineseFormat c4input2) ∧
    (parseChineseFormat ⟨[]⟩ c4input2).1 = actualParseChineseFormat c4input2 :=
  ⟨fun r hr => Option.noConfusion hr,
   c4_cache_transparent_amended ⟨[]⟩ c4input2 (fun r hr => Option.noConfusion hr)⟩

/-! ## C7: colon-glyph tolerance -/

theorem splitChars_single {pred : Char → Bool} :
    ∀ {s : Str}, (∀ c ∈ s, pred c = false) → splitChars pred s = [s] := by
  intro s
  induction s with
  | nil => intro _; rfl
  | cons c t ih =>
    intro h
    have hc : pred c = false := h c (List.mem_cons_self _ _)
    have ht := ih (fun c2 hc2 => h c2 (List.mem_cons_of_mem _ hc2))
    simp only [splitChars, hc, ht]
    rfl

theorem trim_ne_nil {s : Str} {c : Char} (hc : c ∈ s) (hw : c.isWhitespace = false) :
    trim s ≠ [] := by
  intro h
  unfold trim at h
  have h1 : (s.dropWhile Char.isWhitespace).reverse.dropWhile Char.isWhitespace = [] :=
    List.reverse_eq_nil_iff.mp h
  have h2 : ∀ x ∈ (s.dropWhile Char.isWhitespace).reverse, Char.isWhitespace x = true :=
    List.dropWhile_eq_nil_iff.mp h1
  have h3 : ∀ x ∈ s.dropWhile Char.isWhitespace, Char.isWhitespace x = true := by
    intro x hx
    exact h2 x (List.mem_reverse.mpr hx)
  have h4 : ∀ x ∈ s, Char.isWhitespace x = true := by
    intro x hx
    rw [← List.takeWhile_append_dropWhile Char.isWhitespace s] at hx
    rcases List.mem_append.mp hx with h5 | h5
    · exact List.mem_takeWhile_imp h5
    · exact h3 x h5
  rw [h4 c hc] at hw
  cases hw

theorem idxOf_eq_none {s : Str} {target : Char} (h : ∀ c ∈ s, c ≠ target) :
    idxOf s target = none := by
  induction s with
  | nil => rfl
  | cons c t ih =>
    simp only [idxOf, if_neg (h c (List.mem_cons_self _ _))]
    rw [ih (fun c2 hc2 => h c2 (List.mem_cons_of_mem _ hc2))]
    rfl

theorem idxOf_append_self {p v : Str} {g : Char} (h : ∀ c ∈ p, c ≠ g) :
    idxOf (p ++ g :: v) g = some p.length := by
  induction p with
  | nil => simp [idxOf]
  | cons c t ih =>
    simp only [List.cons_append, idxOf, if_neg (h c (List.mem_cons_self _ _)),
      List.append_eq]
    rw [ih (fun c2 hc2 => h c2 (List.mem_cons_of_mem _ hc2))]
    rfl

theorem take_append_len (p v : Str) (g : Char) : (p ++ g :: v).take p.length = p :=
  List.take_left p (g :: v)

theorem drop_append_len (p v : Str) (g : Char) : (p ++ g :: v).drop (p.length + 1) = v := by
  have h1 : p ++ g :: v = (p ++ [g]) ++ v := by simp
  have h2 : (p ++ [g]).length = p.length + 1 := by simp
  rw [h1, ← h2, List.drop_left]

/-- C7 counterexample: inside an element block the localized-format parser
accepts only the ASCII colon.  The same declaration written with the
full-width colon `：` contributes nothing, so the two glyphs are not
interchangeable for `_actualParseChineseFormat`. -/
theorem c7_fullwidth_colon_rejected :
    actualParseChineseFormat (S "消息文本 \x7b\n文字颜色：red\n\x7d") = [] ∧
    actualParseChineseFormat (S "消息文本 \x7b\n文字颜色: red\n\x7d") =
      [(S ".mes_text", [(S "color", S "red")])] := ⟨rfl, rfl⟩

/-- C7 amended: only the decoration-block style parser (`parseStyles` of the
preprocessor) accepts either colon glyph: a declaration whose property and
value texts contain no colon glyph and no declaration separator parses to
the same entry with `：` as with `:`.  The element-block parser
(`_actualParseChineseFormat`) accepts only the ASCII colon (see the
counterexample). -/
theorem c7_colon_glyph_amended (p v : Str)
    (hp : ∀ c ∈ p, c ≠ ':' ∧ c ≠ '：' ∧ c ≠ ';' ∧ c ≠ '；' ∧ c ≠ '\n')
    (hv : ∀ c ∈ v, c ≠ ':' ∧ c ≠ '：' ∧ c ≠ ';' ∧ c ≠ '；' ∧ c ≠ '\n') :
    parseStyles (p ++ ':' :: v) = parseStyles (p ++ '：' :: v) := by
  have hpred1 : ∀ c ∈ p ++ ':' :: v, decide (c = ';' ∨ c = '；' ∨ c = '\n') = false := by
    intro c hc
    rcases List.mem_append.mp hc with h1 | h1
    · obtain ⟨-, -, h3, h4, h5⟩ := hp c h1
      simp [h3, h4, h5]
    · rcases List.mem_cons.mp h1 with h2 | h2
      · subst h2; decide
      · obtain ⟨-, -, h3, h4, h5⟩ := hv c h2
        simp [h3, h4, h5]
  have hpred2 : ∀ c ∈ p ++ '：' :: v, decide (c = ';' ∨ c = '；' ∨ c = '\n') = false := by
    intro c hc
    rcases List.mem_append.mp hc with h1 | h1
    · obtain ⟨-, -, h3, h4, h5⟩ := hp c h1
      simp [h3, h4, h5]
    · rcases List.mem_cons.mp h1 with h2 | h2
      · subst h2; decide
      · obtain ⟨-, -, h3, h4, h5⟩ := hv c h2
        simp [h3, h4, h5]
  have hs1 := splitChars_single hpred1
  have hs2 := splitChars_single hpred2
  have ht1 : trim (p ++ ':' :: v) ≠ [] :=
    trim_ne_nil (List.mem_append.mpr (Or.inr (List.mem_cons_self _ _))) (by decide)
  have ht2 : trim (p ++ '：' :: v) ≠ [] :=
    trim_ne_nil (List.mem_append.mpr (Or.inr (List.mem_cons_self _ _))) (by decide)
  have hi1 : idxOf (p ++ ':' :: v) ':' = some p.length :=
    idxOf_append_self (fun c hc => (hp c hc).1)
  have hi2 : idxOf (p ++ '：' :: v) ':' = none := by
    apply idxOf_eq_none
    intro c hc
    rcases List.mem_append.mp hc with h1 | h1
    · exact (hp c h1).1
    · rcases List.mem_cons.mp h1 with h2 | h2
      · subst h2; decide
      · exact (hv c h2).1
  have hi3 : idxOf (p ++ '：' :: v) '：' = some p.length :=
    idxOf_append_self (fun c hc => (hp c hc).2.1)
  unfold parseStyles
  rw [hs1, hs2]
  simp only [List.foldl_cons, List.foldl_nil, if_neg ht1, if_neg ht2, hi1, hi2, hi3]
  rw [take_append_len, take_append_len, drop_append_len, drop_append_len]

/-- Witness for C7 amended at a concrete declaration. -/
theorem c7_colon_glyph_amended_witness :
    (∀ c ∈ (S "背景颜色"), c ≠ ':' ∧ c ≠ '：' ∧ c ≠ ';' ∧ c ≠ '；' ∧ c ≠ '\n') ∧
    (∀ c ∈ (S "red"), c ≠ ':' ∧ c ≠ '：' ∧ c ≠ ';' ∧ c ≠ '；' ∧ c ≠ '\n') ∧
    parseStyles (S "背景颜色" ++ ':' :: S "red") = parseStyles (S "背景颜色" ++ '：' :: S "red") :=
  ⟨by decide, by decide, c7_colon_glyph_amended (S "背景颜色") (S "red") (by decide) (by decide)⟩

/-! ## C1: round-trip stability through the localized format -/

/-- The RuleMap on which the round trip fails: one icon rule. -/
def c1FailingInput : RuleMap := [(S "#leftNavDrawerIcon", [(S "color", S "red")])]

/-- C1: the spec's round-trip stability fails on the code.  A `RuleMap`
holding one rule for the icon selector `#leftNavDrawerIcon` (no decoration
blocks involved) is generated with the selector kept in raw form, but
`_actualParseChineseFormat` skips every line starting with `#` as a comment,
so the re-parse loses the rule entirely: the round trip yields the empty
`RuleMap` instead of one with the same selector and pairs. -/
theorem c1_roundtrip_drops_icon_rule :
    actualParseChineseFormat (generateChineseFormat c1FailingInput) = [] ∧
      c1FailingInput ≠ [] := by
  constructor
  · rfl
  · decide

/-! ## C10: marker-substring line dropping -/

/-- C10: any line whose trimmed text contains `undefined`, `✨` or
`视觉样式配置` is skipped by the localized-format parser: one loop step of
`_actualParseChineseFormat` on such a line leaves the parse state — and hence
the resulting `RuleMap` — unchanged, whatever the state (even inside an
element block with a well-formed declaration on the line). -/
theorem c10_marker_lines_skipped (allLines : List Str) (st : ChineseParseState)
    (rawLine : Str)
    (h : strIncl (trim rawLine) (S "undefined") = true ∨
         strIncl (trim rawLine) (S "✨") = true ∨
         strIncl (trim rawLine) (S "视觉样式配置") = true) :
    chineseStep allLines st rawLine = st := by
  unfold chineseStep
  by_cases h1 : (strStarts (trim rawLine) (S "@") = true ∧
      jsIndexOf allLines (S "\x7d") (jsIndexOf allLines (trim rawLine) 0) ≠ -1)
  · rw [if_pos h1]
  · rw [if_neg h1, if_pos ?hc]
    case hc =>
      rcases h with h | h | h
      · exact Or.inr (Or.inr (Or.inr (Or.inr (Or.inr (Or.inr h)))))
      · exact Or.inr (Or.inr (Or.inr (Or.inr (Or.inl h))))
      · exact Or.inr (Or.inr (Or.inr (Or.inr (Or.inr (Or.inl h)))))

/-- Witness for C10 at a concrete state and line: a well-formed declaration
line inside an element block whose value contains `undefined` contributes
nothing. -/
theorem c10_marker_lines_skipped_witness :
    (strIncl (trim (S "  文字颜色: red undefined")) (S "undefined") = true ∨
     strIncl (trim (S "  文字颜色: red undefined")) (S "✨") = true ∨
     strIncl (trim (S "  文字颜色: red undefined")) (S "视觉样式配置") = true) ∧
    chineseStep [] ⟨some (S ".mes_text"), [], []⟩ (S "  文字颜色: red undefined") =
      ⟨some (S ".mes_text"), [], []⟩ :=
  ⟨Or.inl (by decide),
   c10_marker_lines_skipped [] ⟨some (S ".mes_text"), [], []⟩ _ (Or.inl (by decide))⟩

/-! ## C9: empty-rule pruning invariant -/

theorem parseCSSLoopF_no_empty :
    ∀ {fuel : Nat} {s : Str} {rules : RuleMap}, (∀ e ∈ rules, e.2 ≠ []) →
      ∀ e ∈ parseCSSLoopF fuel s rules, e.2 ≠ [] := by
  intro fuel
  induction fuel with
  | zero => intro s rules hinv e he; exact hinv e he
  | succ n ih =>
    intro s rules hinv e he
    rw [parseCSSLoopF] at he
    cases hf : findRule s with
    | none => rw [hf] at he; exact hinv e he
    | some m =>
      rw [hf] at he
      dsimp only at he
      apply ih ?_ e he
      intro e2 he2
      by_cases hc : trim m.1 ≠ [] ∧ trim m.2.1 ≠ []
      · rw [if_pos hc] at he2
        by_cases hp : parseDeclarations (trim m.2.1) ≠ []
        · rw [if_pos hp] at he2
          rcases mem_mapSet he2 with h3 | h3
          · exact hinv e2 h3
          · rw [h3]
            exact hp
        · rw [if_neg hp] at he2
          exact hinv e2 he2
      · rw [if_neg hc] at he2
        exact hinv e2 he2

theorem flushStyles_no_empty {st : ChineseParseState}
    (h : ∀ e ∈ st.styles, e.2 ≠ []) : ∀ e ∈ flushStyles st, e.2 ≠ [] := by
  unfold flushStyles
  cases st.currentElement with
  | none => exact h
  | some el =>
    dsimp only
    by_cases hc : st.currentStyles ≠ []
    · rw [if_pos hc]
      intro e he
      rcases mem_mapSet he with h3 | h3
      · exact h e h3
      · rw [h3]; exact hc
    · rw [if_neg hc]
      exact h

theorem chineseStep_no_empty (allLines : List Str) (st : ChineseParseState)
    (rawLine : Str) (h : ∀ e ∈ st.styles, e.2 ≠ []) :
    ∀ e ∈ (chineseStep allLines st rawLine).styles, e.2 ≠ [] := by
  unfold chineseStep
  dsimp only
  split
  · exact h
  · split
    · exact h
    · split
      · exact flushStyles_no_empty h
      · split
        · exact flushStyles_no_empty h
        · split
          · split
            · split
              · exact h
              · split
                · exact h
                · exact h
            · exact h
          · exact h

theorem chineseFold_no_empty (allLines : List Str) :
    ∀ (lines : List Str) (st : ChineseParseState), (∀ e ∈ st.styles, e.2 ≠ []) →
      ∀ e ∈ (lines.foldl (chineseStep allLines) st).styles, e.2 ≠ [] := by
  intro lines
  induction lines with
  | nil => intro st h; exact h
  | cons l t ih =>
    intro st h
    exact ih _ (chineseStep_no_empty allLines st l h)

/-- C9: both parsers prune empty rules: every selector of a `RuleMap`
produced by `parseCSSText` or by `_actualParseChineseFormat` maps to a
`PropertyMap` with at least one entry. -/
theorem c9_no_empty_rules :
    (∀ (input : Str) (e : Str × PropMap), e ∈ parseCSSText input → e.2 ≠ []) ∧
    (∀ (input : Str) (e : Str × PropMap), e ∈ actualParseChineseFormat input → e.2 ≠ []) := by
  constructor
  · intro input e he
    exact parseCSSLoopF_no_empty (by intro e2 he2; cases he2) e he
  · intro input e he
    unfold actualParseChineseFormat at he
    exact flushStyles_no_empty
      (chineseFold_no_empty _ _ ⟨none, [], []⟩ (by intro e2 he2; cases he2)) e he

/-- Witness for C9 at concrete inputs for both parsers. -/
theorem c9_no_empty_rules_witness :
    ((S ".a", [(S "color", S "red")]) ∈ parseCSSText (S ".a\x7bcolor:red\x7d") ∧
      [(S "color", S "red")] ≠ ([] : PropMap)) ∧
    ((S ".mes_text", [(S "color", S "red")]) ∈
        actualParseChineseFormat (S "消息文本 \x7b\n文字颜色: red\n\x7d") ∧
      [(S "color", S "red")] ≠ ([] : PropMap)) :=
  ⟨⟨by decide, c9_no_empty_rules.1 (S ".a\x7bcolor:red\x7d")
      (S ".a", [(S "color", S "red")]) (by decide)⟩,
   ⟨by decide, c9_no_empty_rules.2 (S "消息文本 \x7b\n文字颜色: red\n\x7d")
      (S ".mes_text", [(S "color", S "red")]) (by decide)⟩⟩

/-! ## C8: squeeze-mode transform replacement -/

/-- **C8** Squeeze-mode transform replacement: in squeeze mode (for the
avatar anchor and for the info anchor alike) the generated container rule's
`transform` is exactly `rotate(r)` for a non-zero rotation and exactly
`none` for a zero rotation, for every property map — so no prior transform
(e.g. from an earlier overlay run) can leak through.  In overlay mode the
rotation is composed additively: onto the position's own transform when the
position has one (`top-center`), and standing alone otherwise (`top-left`). -/
theorem c8_squeeze_transform_replaced :
    (∀ properties : PropMap,
      mapGet properties (S "avatar-layout-mode") = some (S "squeeze") →
      mapGet (generateAvatarLayoutCSS properties) (S "transform") =
        some (if orD (mapGet properties (S "avatar-rotate")) (S "0deg") ≠ S "0deg"
              then S "rotate(" ++ orD (mapGet properties (S "avatar-rotate")) (S "0deg") ++ S ")"
              else S "none")) ∧
    (∀ properties : PropMap,
      mapGet properties (S "info-layout-mode") = some (S "squeeze") →
      mapGet (generateInfoLayoutCSS properties) (S "transform") =
        some (if orD (mapGet properties (S "info-rotate")) (S "0deg") ≠ S "0deg"
              then S "rotate(" ++ orD (mapGet properties (S "info-rotate")) (S "0deg") ++ S ")"
              else S "none")) ∧
    (∀ properties : PropMap,
      mapGet properties (S "avatar-layout-mode") = some (S "overlay") →
      mapGet properties (S "avatar-position") = some (S "top-center") →
      orD (mapGet properties (S "avatar-rotate")) (S "0deg") ≠ S "0deg" →
      mapGet (generateAvatarLayoutCSS properties) (S "transform") =
        some ((S "translateX(-50%) translateX(" ++
                orD (mapGet properties (S "avatar-offset-x")) (S "0px") ++ S ")") ++
              S " rotate(" ++ orD (mapGet properties (S "avatar-rotate")) (S "0deg") ++ S ")")) ∧
    (∀ properties : PropMap,
      mapGet properties (S "avatar-layout-mode") = some (S "overlay") →
      mapGet properties (S "avatar-position") = some (S "top-left") →
      orD (mapGet properties (S "avatar-rotate")) (S "0deg") ≠ S "0deg" →
      mapGet (generateAvatarLayoutCSS properties) (S "transform") =
        some (S "rotate(" ++ orD (mapGet properties (S "avatar-rotate")) (S "0deg") ++ S ")")) := by
  refine ⟨?_, ?_, ?_, ?_⟩
  · intro properties hmode
    simp only [generateAvatarLayoutCSS]
    rw [hmode]
    simp only [show ((some (S "squeeze") : Option Str) = some (S "overlay")) = False from
        eq_false (by decide),
      show ((some (S "squeeze") : Option Str) = some (S "squeeze")) = True from eq_true rfl,
      if_true, if_false]
    split_ifs with h <;> rw [mapGet_mapSet_self]
  · intro properties hmode
    simp only [generateInfoLayoutCSS]
    rw [hmode]
    simp only [show ((some (S "squeeze") : Option Str) = some (S "overlay")) = False from
        eq_false (by decide),
      show ((some (S "squeeze") : Option Str) = some (S "squeeze")) = True from eq_true rfl,
      if_true, if_false]
    split_ifs with h <;> rw [mapGet_mapSet_self]
  · intro properties hmode hpos hrot
    simp only [generateAvatarLayoutCSS]
    rw [hmode, hpos]
    simp only [show ((some (S "overlay") : Option Str) = some (S "squeeze")) = False from
        eq_false (by decide),
      show ((some (S "overlay") : Option Str) = some (S "overlay")) = True from eq_true rfl,
      if_true, if_false]
    rw [if_pos hrot, mapGet_mapSet_self]
    rfl
  · intro properties hmode hpos hrot
    simp only [generateAvatarLayoutCSS]
    rw [hmode, hpos]
    simp only [show ((some (S "overlay") : Option Str) = some (S "squeeze")) = False from
        eq_false (by decide),
      show ((some (S "overlay") : Option Str) = some (S "overlay")) = True from eq_true rfl,
      if_true, if_false]
    rw [if_pos hrot, mapGet_mapSet_self]
    rfl

/-- A squeeze-mode avatar layout input with zero rotation. -/
def c8props1 : PropMap := strPairs
  [("avatar-layout-mode", "squeeze"), ("avatar-position", "top-left"),
   ("avatar-rotate", "0deg")]

/-- A squeeze-mode info layout input with a non-zero rotation. -/
def c8props2 : PropMap := strPairs
  [("info-layout-mode", "squeeze"), ("info-rotate", "45deg")]

/-- An overlay-mode input on a centered position (which has its own
transform) with a non-zero rotation. -/
def c8props3 : PropMap := strPairs
  [("avatar-layout-mode", "overlay"), ("avatar-position", "top-center"),
   ("avatar-rotate", "30deg")]

/-- An overlay-mode input on a corner position (no transform of its own)
with a non-zero rotation. -/
def c8props4 : PropMap := strPairs
  [("avatar-layout-mode", "overlay"), ("avatar-position", "top-left"),
   ("avatar-rotate", "30deg")]

/-- Witness for C8 at the four concrete layout inputs. -/
theorem c8_squeeze_transform_replaced_witness :
    mapGet (generateAvatarLayoutCSS c8props1) (S "transform") = some (S "none") ∧
    mapGet (generateInfoLayoutCSS c8props2) (S "transform") = some (S "rotate(45deg)") ∧
    mapGet (generateAvatarLayoutCSS c8props3) (S "transform") =
      some (S "translateX(-50%) translateX(0px) rotate(30deg)") ∧
    mapGet (generateAvatarLayoutCSS c8props4) (S "transform") = some (S "rotate(30deg)") :=
  ⟨c8_squeeze_transform_replaced.1 c8props1 rfl,
   c8_squeeze_transform_replaced.2.1 c8props2 rfl,
   c8_squeeze_transform_replaced.2.2.1 c8props3 rfl rfl (by decide),
   c8_squeeze_transform_replaced.2.2.2 c8props4 rfl rfl (by decide)⟩

/-! ## C3: margin shorthand merge -/

theorem mapGet_mapDelete_self (m : List (Str × α)) (k : Str) :
    mapGet (mapDelete m k) k = none := by
  induction m with
  | nil => rfl
  | cons e t ih =>
    obtain ⟨k1, v1⟩ := e
    simp only [mapDelete, List.filter] at ih ⊢
    by_cases h : k1 = k
    · rw [show (decide (k1 ≠ k)) = false by simp [h]]
      exact ih
    · rw [show (decide (k1 ≠ k)) = true by simp [h]]
      simp only [mapGet, List.find?]
      rw [decide_eq_false h]
      exact ih

theorem mapGet_mapDelete_ne (m : List (Str × α)) {k k' : Str} (h : k' ≠ k) :
    mapGet (mapDelete m k) k' = mapGet m k' := by
  induction m with
  | nil => rfl
  | cons e t ih =>
    obtain ⟨k1, v1⟩ := e
    simp only [mapDelete, List.filter] at ih ⊢
    by_cases h1 : k1 = k
    · rw [show (decide (k1 ≠ k)) = false by simp [h1]]
      rw [ih]
      have hne : ¬(k1 = k') := by rw [h1]; exact fun he => h he.symm
      simp only [mapGet, List.find?, decide_eq_false hne]
    · rw [show (decide (k1 ≠ k)) = true by simp [h1]]
      simp only [mapGet, List.find?]
      cases hd : decide (k1 = k') with
      | true => simp
      | false => exact ih

theorem mapSet_keys_nodup {m : List (Str × α)} (k : Str) (v : α)
    (h : (m.map Prod.fst).Nodup) : ((mapSet m k v).map Prod.fst).Nodup := by
  induction m with
  | nil => simp [mapSet]
  | cons e t ih =>
    obtain ⟨k1, v1⟩ := e
    simp only [List.map_cons, List.nodup_cons] at h
    by_cases h1 : k1 = k
    · simp only [mapSet, if_pos h1, List.map_cons, List.nodup_cons]
      exact h
    · simp only [mapSet, if_neg h1, List.map_cons, List.nodup_cons]
      refine ⟨?_, ih h.2⟩
      intro hmem
      obtain ⟨e, he, hek⟩ := List.mem_map.mp hmem
      rcases mem_mapSet he with h2 | h2
      · exact h.1 (List.mem_map.mpr ⟨e, h2, hek⟩)
      · apply h1
        rw [h2] at hek
        exact hek.symm

theorem mapDelete_keys_nodup {m : List (Str × α)} (k : Str)
    (h : (m.map Prod.fst).Nodup) : ((mapDelete m k).map Prod.fst).Nodup :=
  List.Nodup.sublist (List.Sublist.map Prod.fst (List.filter_sublist m)) h

theorem countP_entry_eq_one {m : List (Str × Str)} {k v : Str}
    (hnd : (m.map Prod.fst).Nodup) (h : mapGet m k = some v) :
    m.countP (fun e => decide (e.1 = k ∧ e.2 = v)) = 1 := by
  induction m with
  | nil => simp [mapGet] at h
  | cons e t ih =>
    obtain ⟨k1, v1⟩ := e
    simp only [List.map_cons, List.nodup_cons] at hnd
    simp only [mapGet, List.find?] at h
    rw [List.countP_cons]
    by_cases h1 : k1 = k
    · rw [decide_eq_true h1] at h
      have hv : v1 = v := by simpa using h
      have hz : t.countP (fun e => decide (e.1 = k ∧ e.2 = v)) = 0 := by
        rw [List.countP_eq_zero]
        intro a ha
        simp only [decide_eq_true_eq, not_and]
        intro hak _
        exact hnd.1 (List.mem_map.mpr ⟨a, ha, by rw [hak]; exact h1.symm⟩)
      rw [hz]
      simp [h1, hv]
    · rw [decide_eq_false h1] at h
      rw [ih hnd.2 h]
      simp [h1]

theorem countP_key_eq_zero {m : List (Str × Str)} {k : Str}
    (h : mapGet m k = none) :
    m.countP (fun e => decide (e.1 = k)) = 0 := by
  induction m with
  | nil => rfl
  | cons e t ih =>
    obtain ⟨k1, v1⟩ := e
    simp only [mapGet, List.find?] at h
    by_cases hk : k1 = k
    · rw [decide_eq_true hk] at h
      simp at h
    · rw [decide_eq_false hk] at h
      rw [List.countP_cons, ih h]
      simp [hk]

theorem insertCmp_perm (cmp : α → α → Int) (x : α) (l : List α) :
    List.Perm (insertCmp cmp x l) (x :: l) := by
  induction l with
  | nil => exact List.Perm.refl _
  | cons y t ih =>
    simp only [insertCmp]
    by_cases h : cmp y x ≤ 0
    · rw [if_pos h]
      exact (ih.cons y).trans (List.Perm.swap x y t)
    · rw [if_neg h]

theorem sortProperties_perm (m : PropMap) : List.Perm (sortProperties m) m := by
  suffices h : ∀ (l acc : PropMap),
      List.Perm (l.foldl (fun a e => insertCmp propCmp e a) acc) (acc ++ l) by
    simpa using h m []
  intro l
  induction l with
  | nil => intro acc; simp
  | cons x t ih =>
    intro acc
    simp only [List.foldl_cons]
    exact (ih (insertCmp propCmp x acc)).trans
      (((insertCmp_perm propCmp x acc).append_right t).trans List.perm_middle.symm)

/-- The margin/padding stage of `mergeProperties`, as one reusable function. -/
def boxStage (m : PropMap) (pfx : Str) : PropMap :=
  if canMergeBox m pfx then
    match mergeBox m pfx with
    | some value =>
      if value ≠ [] then
        mapDelete (mapDelete (mapDelete (mapDelete
          (mapSet m pfx value) (pfx ++ S "-top")) (pfx ++ S "-right"))
          (pfx ++ S "-bottom")) (pfx ++ S "-left")
      else m
    | none => m
  else m

/-- The border stage of `mergeProperties`. -/
def borderStage (m : PropMap) : PropMap :=
  if canMergeBorder m then
    match mergeBorder m with
    | some value =>
      if value ≠ [] then
        mapDelete (mapDelete (mapDelete (mapSet m (S "border") value)
          (S "border-width")) (S "border-style")) (S "border-color")
      else m
    | none => m
  else m

theorem mergeProperties_eq_stages (props : PropMap) :
    mergeProperties props =
      borderStage (boxStage (boxStage props (S "margin")) (S "padding")) := rfl

theorem boxStage_preserves (m : PropMap) (pfx q : Str)
    (h1 : q ≠ pfx) (h2 : q ≠ pfx ++ S "-top") (h3 : q ≠ pfx ++ S "-right")
    (h4 : q ≠ pfx ++ S "-bottom") (h5 : q ≠ pfx ++ S "-left") :
    mapGet (boxStage m pfx) q = mapGet m q := by
  unfold boxStage
  split
  · split
    · split
      · rw [mapGet_mapDelete_ne _ h5, mapGet_mapDelete_ne _ h4,
            mapGet_mapDelete_ne _ h3, mapGet_mapDelete_ne _ h2,
            mapGet_mapSet_ne _ _ h1]
      · rfl
    · rfl
  · rfl

theorem borderStage_preserves (m : PropMap) (q : Str)
    (h1 : q ≠ S "border") (h2 : q ≠ S "border-width") (h3 : q ≠ S "border-style")
    (h4 : q ≠ S "border-color") :
    mapGet (borderStage m) q = mapGet m q := by
  unfold borderStage
  split
  · split
    · split
      · rw [mapGet_mapDelete_ne _ h4, mapGet_mapDelete_ne _ h3,
            mapGet_mapDelete_ne _ h2, mapGet_mapSet_ne _ _ h1]
      · rfl
    · rfl
  · rfl

theorem boxStage_keys_nodup {m : PropMap} (pfx : Str)
    (h : (m.map Prod.fst).Nodup) : ((boxStage m pfx).map Prod.fst).Nodup := by
  unfold boxStage
  split
  · split
    · split
      · exact mapDelete_keys_nodup _ (mapDelete_keys_nodup _ (mapDelete_keys_nodup _
          (mapDelete_keys_nodup _ (mapSet_keys_nodup _ _ h))))
      · exact h
    · exact h
  · exact h

theorem borderStage_keys_nodup {m : PropMap}
    (h : (m.map Prod.fst).Nodup) : ((borderStage m).map Prod.fst).Nodup := by
  unfold borderStage
  split
  · split
    · split
      · exact mapDelete_keys_nodup _ (mapDelete_keys_nodup _ (mapDelete_keys_nodup _
          (mapSet_keys_nodup _ _ h)))
      · exact h
    · exact h
  · exact h

/-- The shorthand-merge pre-pass `mergeProperties` (reachable only through
`optimize`, which no code of the repository ever calls) does implement the
merge the spec describes: when all four margin longhands are `4px` (keys
unduplicated, as they come from a JS object), the merged map sorted by
`sortProperties` contains exactly one `margin: 4px` entry and no
`margin-top`/`-right`/`-bottom`/`-left` entry. -/
theorem mergeProperties_margin_merges (props : PropMap)
    (hnd : (props.map Prod.fst).Nodup)
    (ht : mapGet props (S "margin-top") = some (S "4px"))
    (hr : mapGet props (S "margin-right") = some (S "4px"))
    (hb : mapGet props (S "margin-bottom") = some (S "4px"))
    (hl : mapGet props (S "margin-left") = some (S "4px")) :
    (sortProperties (mergeProperties props)).countP
        (fun e => decide (e.1 = S "margin" ∧ e.2 = S "4px")) = 1 ∧
    (sortProperties (mergeProperties props)).countP
        (fun e => decide (e.1 = S "margin-top")) = 0 ∧
    (sortProperties (mergeProperties props)).countP
        (fun e => decide (e.1 = S "margin-right")) = 0 ∧
    (sortProperties (mergeProperties props)).countP
        (fun e => decide (e.1 = S "margin-bottom")) = 0 ∧
    (sortProperties (mergeProperties props)).countP
        (fun e => decide (e.1 = S "margin-left")) = 0 := by
  have e1 : S "margin" ++ (S "-" ++ S "top") = S "margin-top" := rfl
  have e2 : S "margin" ++ (S "-" ++ S "right") = S "margin-right" := rfl
  have e3 : S "margin" ++ (S "-" ++ S "bottom") = S "margin-bottom" := rfl
  have e4 : S "margin" ++ (S "-" ++ S "left") = S "margin-left" := rfl
  have f1 : S "margin" ++ S "-top" = S "margin-top" := rfl
  have f2 : S "margin" ++ S "-right" = S "margin-right" := rfl
  have f3 : S "margin" ++ S "-bottom" = S "margin-bottom" := rfl
  have f4 : S "margin" ++ S "-left" = S "margin-left" := rfl
  have hcm : canMergeBox props (S "margin") = true := by
    simp [canMergeBox, mapHas, e1, e2, e3, e4, ht, hr, hb, hl]
  have hmb : mergeBox props (S "margin") = some (S "4px") := by
    simp only [mergeBox, f1, f2, f3, f4, ht, hr, hb, hl]
    simp
  have hM : boxStage props (S "margin") =
      mapDelete (mapDelete (mapDelete (mapDelete
        (mapSet props (S "margin") (S "4px")) (S "margin-top")) (S "margin-right"))
        (S "margin-bottom")) (S "margin-left") := by
    unfold boxStage
    rw [if_pos hcm]
    split
    · rename_i value heq
      rw [hmb] at heq
      have hveq : value = S "4px" := (Option.some.inj heq).symm
      subst hveq
      rw [if_pos (by decide : (S "4px" : Str) ≠ [])]
      rfl
    · rename_i heq
      rw [hmb] at heq
      simp at heq
  have nM1 : (S "margin" : Str) ≠ S "margin-top" := by decide
  have nM2 : (S "margin" : Str) ≠ S "margin-right" := by decide
  have nM3 : (S "margin" : Str) ≠ S "margin-bottom" := by decide
  have nM4 : (S "margin" : Str) ≠ S "margin-left" := by decide
  have hMm : mapGet (boxStage props (S "margin")) (S "margin") = some (S "4px") := by
    rw [hM, mapGet_mapDelete_ne _ nM4, mapGet_mapDelete_ne _ nM3,
        mapGet_mapDelete_ne _ nM2, mapGet_mapDelete_ne _ nM1, mapGet_mapSet_self]
  have hMt : mapGet (boxStage props (S "margin")) (S "margin-top") = none := by
    rw [hM, mapGet_mapDelete_ne _ (by decide), mapGet_mapDelete_ne _ (by decide),
        mapGet_mapDelete_ne _ (by decide), mapGet_mapDelete_self]
  have hMr : mapGet (boxStage props (S "margin")) (S "margin-right") = none := by
    rw [hM, mapGet_mapDelete_ne _ (by decide), mapGet_mapDelete_ne _ (by decide),
        mapGet_mapDelete_self]
  have hMb : mapGet (boxStage props (S "margin")) (S "margin-bottom") = none := by
    rw [hM, mapGet_mapDelete_ne _ (by decide), mapGet_mapDelete_self]
  have hMl : mapGet (boxStage props (S "margin")) (S "margin-left") = none := by
    rw [hM, mapGet_mapDelete_self]
  have hkeep : ∀ q : Str, q ≠ S "padding" → q ≠ S "padding" ++ S "-top" →
      q ≠ S "padding" ++ S "-right" → q ≠ S "padding" ++ S "-bottom" →
      q ≠ S "padding" ++ S "-left" → q ≠ S "border" → q ≠ S "border-width" →
      q ≠ S "border-style" → q ≠ S "border-color" →
      mapGet (mergeProperties props) q = mapGet (boxStage props (S "margin")) q := by
    intro q p1 p2 p3 p4 p5 b1 b2 b3 b4
    rw [mergeProperties_eq_stages, borderStage_preserves _ _ b1 b2 b3 b4,
        boxStage_preserves _ _ _ p1 p2 p3 p4 p5]
  have hm : mapGet (mergeProperties props) (S "margin") = some (S "4px") := by
    rw [hkeep _ (by decide) (by decide) (by decide) (by decide) (by decide)
        (by decide) (by decide) (by decide) (by decide)]
    exact hMm
  have h0t : mapGet (mergeProperties props) (S "margin-top") = none := by
    rw [hkeep _ (by decide) (by decide) (by decide) (by decide) (by decide)
        (by decide) (by decide) (by decide) (by decide)]
    exact hMt
  have h0r : mapGet (mergeProperties props) (S "margin-right") = none := by
    rw [hkeep _ (by decide) (by decide) (by decide) (by decide) (by decide)
        (by decide) (by decide) (by decide) (by decide)]
    exact hMr
  have h0b : mapGet (mergeProperties props) (S "margin-bottom") = none := by
    rw [hkeep _ (by decide) (by decide) (by decide) (by decide) (by decide)
        (by decide) (by decide) (by decide) (by decide)]
    exact hMb
  have h0l : mapGet (mergeProperties props) (S "margin-left") = none := by
    rw [hkeep _ (by decide) (by decide) (by decide) (by decide) (by decide)
        (by decide) (by decide) (by decide) (by decide)]
    exact hMl
  have hndM : ((mergeProperties props).map Prod.fst).Nodup := by
    rw [mergeProperties_eq_stages]
    exact borderStage_keys_nodup (boxStage_keys_nodup _ (boxStage_keys_nodup _ hnd))
  have hperm := sortProperties_perm (mergeProperties props)
  refine ⟨?_, ?_, ?_, ?_, ?_⟩
  · rw [hperm.countP_eq]
    exact countP_entry_eq_one hndM hm
  · rw [hperm.countP_eq]
    exact countP_key_eq_zero h0t
  · rw [hperm.countP_eq]
    exact countP_key_eq_zero h0r
  · rw [hperm.countP_eq]
    exact countP_key_eq_zero h0b
  · rw [hperm.countP_eq]
    exact countP_key_eq_zero h0l

/-- A property map with all four margin longhands equal to `4px`. -/
def c3props : PropMap := strPairs
  [("margin-top", "4px"), ("margin-right", "4px"), ("margin-bottom", "4px"),
   ("margin-left", "4px"), ("color", "red")]

/-- The pre-pass merge lemma at a concrete property map. -/
theorem mergeProperties_margin_merges_check :
    (sortProperties (mergeProperties c3props)).countP
        (fun e => decide (e.1 = S "margin" ∧ e.2 = S "4px")) = 1 ∧
    (sortProperties (mergeProperties c3props)).countP
        (fun e => decide (e.1 = S "margin-top")) = 0 ∧
    (sortProperties (mergeProperties c3props)).countP
        (fun e => decide (e.1 = S "margin-right")) = 0 ∧
    (sortProperties (mergeProperties c3props)).countP
        (fun e => decide (e.1 = S "margin-bottom")) = 0 ∧
    (sortProperties (mergeProperties c3props)).countP
        (fun e => decide (e.1 = S "margin-left")) = 0 :=
  mergeProperties_margin_merges c3props (by decide) rfl rfl rfl rfl

/-- **C3** (code bug) Shorthand merge never runs on the live path:
`generate` preprocesses the avatar/info layout properties and then renders
every rule with `generateRule` (through `generateGroupedRules` /
`generateFlatRules`) on the unmerged property map — `optimize`, the only
caller of `mergeProperties`, is itself never called anywhere in the
repository.  So for a rule whose map holds the four margin longhands at
`4px`, the emitted rule text contains all four longhand declarations and
no `margin: 4px` declaration, even though the dead pre-pass itself would
have merged them (last two conjuncts). -/
theorem c3_margin_merge_never_applied :
    strIncl (generateRule (S ".mes_text") c3props defaultGenConfig)
      (S "margin-top: 4px") = true ∧
    strIncl (generateRule (S ".mes_text") c3props defaultGenConfig)
      (S "margin-right: 4px") = true ∧
    strIncl (generateRule (S ".mes_text") c3props defaultGenConfig)
      (S "margin-bottom: 4px") = true ∧
    strIncl (generateRule (S ".mes_text") c3props defaultGenConfig)
      (S "margin-left: 4px") = true ∧
    strIncl (generateRule (S ".mes_text") c3props defaultGenConfig)
      (S "margin: 4px") = false ∧
    mapGet (mergeProperties c3props) (S "margin") = some (S "4px") ∧
    mapGet (mergeProperties c3props) (S "margin-top") = none :=
  ⟨by decide, by decide, by decide, by decide, by decide, by decide, by decide⟩

/-! ## C2: decoration reconciliation -/

theorem mapGet_of_mem_nodup {m : List (Str × α)} (hnd : (m.map Prod.fst).Nodup)
    {e : Str × α} (he : e ∈ m) : mapGet m e.1 = some e.2 := by
  induction m with
  | nil => cases he
  | cons a t ih =>
    simp only [List.map_cons, List.nodup_cons] at hnd
    rcases List.mem_cons.mp he with h | h
    · subst h
      simp [mapGet, List.find?]
    · by_cases hk : a.1 = e.1
      · exact absurd (List.mem_map.mpr ⟨e, h, hk.symm⟩) hnd.1
      · simp only [mapGet, List.find?, decide_eq_false hk]
        exact ih hnd.2 h

theorem mapGet_mem {m : List (Str × α)} {k : Str} {v : α}
    (h : mapGet m k = some v) : (k, v) ∈ m := by
  unfold mapGet at h
  cases hf : m.find? (fun e => decide (e.1 = k)) with
  | none => rw [hf] at h; cases h
  | some e =>
    rw [hf] at h
    obtain ⟨e1, e2⟩ := e
    have hp := @List.find?_some (Str × α) (fun x => decide (x.1 = k)) (e1, e2) m hf
    have hk : e1 = k := of_decide_eq_true hp
    have hv : e2 = v := by simpa using h
    rw [← hk, ← hv]
    exact List.mem_of_find?_eq_some hf

theorem removeElem_nodes (rule : DecorationRule) (e : DomElem) :
    (removeDecorationElem rule e).nodes =
      e.nodes.filter (fun n => decide (¬(n.className = rule.className ∧ n.ruleId = rule.id))) := by
  simp only [removeDecorationElem]
  split <;> rfl

theorem removeElem_membership (rule : DecorationRule) (e : DomElem)
    (hm : matchesSel e rule.selector = true) :
    rule.id ∉ (removeDecorationElem rule e).membership := by
  simp only [removeDecorationElem]
  split
  · intro hcon
    simp at hcon
  · rename_i hns
    exact absurd hm hns

theorem applyElem_nonmatch (rule : DecorationRule) (e : DomElem)
    (hm : matchesSel e rule.selector = false) : applyDecorationElem rule e = e := by
  simp only [applyDecorationElem]
  rw [if_pos]
  rw [hm]
  exact Bool.false_ne_true

theorem applyElem_new (rule : DecorationRule) (e : DomElem)
    (hm : matchesSel e rule.selector = true) (hmem : rule.id ∉ e.membership) :
    (applyDecorationElem rule e).nodes = e.nodes ++ [createDecorationElement rule] ∧
    (applyDecorationElem rule e).membership = e.membership ++ [rule.id] := by
  refine ⟨?_, ?_⟩ <;>
  · simp only [applyDecorationElem]
    rw [if_neg (not_not_intro hm), if_neg hmem]
    split
    · rfl
    · split <;> rfl

theorem removeThenAdd_nodes (rule : DecorationRule) (e : DomElem)
    (hm : matchesSel e rule.selector = true) :
    (applyDecorationElem rule (removeDecorationElem rule e)).nodes =
      e.nodes.filter (fun n => decide (¬(n.className = rule.className ∧ n.ruleId = rule.id)))
        ++ [createDecorationElement rule] := by
  have h1 : matchesSel (removeDecorationElem rule e) rule.selector = true := by
    simp only [removeDecorationElem]
    split <;> exact hm
  have h2 : rule.id ∉ (removeDecorationElem rule e).membership :=
    removeElem_membership rule e hm
  rw [(applyElem_new rule (removeDecorationElem rule e) h1 h2).1, removeElem_nodes]

/-- **C2** Reconciliation correctness: with both rule tables keyed by rule
id (entries carry their own id, keys unduplicated), `toRemove` holds
exactly the old rules whose id is absent from the new table, `toAdd`
exactly the new rules whose id is absent from the old table, and `toUpdate`
exactly the new rules present in both tables with a different style map;
`removeDecoration` destroys exactly the synthetic nodes tagged with the
rule's class and id and clears the membership record on matching elements;
`applyDecoration` leaves non-matching elements untouched and, on a matching
element without the membership record, appends exactly one freshly created
synthetic node (styles filtered of the reserved pseudo-property,
`pointer-events` defaulting to non-interactive) and records membership;
and a changed rule is handled as remove-then-add: the old node is dropped
and a fresh node built from the new rule is appended, not patched in
place. -/
theorem c2_reconciliation_correct :
    (∀ (oldRules newRules : List (Str × DecorationRule)),
      (∀ e ∈ oldRules, e.1 = e.2.id) → (∀ e ∈ newRules, e.1 = e.2.id) →
      (oldRules.map Prod.fst).Nodup → (newRules.map Prod.fst).Nodup →
      ∀ r : DecorationRule,
        (r ∈ reconcileToRemove oldRules newRules ↔
          mapGet oldRules r.id = some r ∧ mapGet newRules r.id = none) ∧
        (r ∈ reconcileToAdd oldRules newRules ↔
          mapGet newRules r.id = some r ∧ mapGet oldRules r.id = none) ∧
        (r ∈ reconcileToUpdate oldRules newRules ↔
          mapGet newRules r.id = some r ∧
            ∃ r0, mapGet oldRules r.id = some r0 ∧ r0.styles ≠ r.styles)) ∧
    (∀ (rule : DecorationRule) (e : DomElem),
      (removeDecorationElem rule e).nodes =
        e.nodes.filter (fun n => decide (¬(n.className = rule.className ∧ n.ruleId = rule.id))) ∧
      (matchesSel e rule.selector = true →
        rule.id ∉ (removeDecorationElem rule e).membership)) ∧
    (∀ (rule : DecorationRule) (e : DomElem),
      (matchesSel e rule.selector = false → applyDecorationElem rule e = e) ∧
      (matchesSel e rule.selector = true → rule.id ∉ e.membership →
        (applyDecorationElem rule e).nodes = e.nodes ++ [createDecorationElement rule] ∧
        (applyDecorationElem rule e).membership = e.membership ++ [rule.id])) ∧
    (∀ rule : DecorationRule,
      (createDecorationElement rule).styles =
        rule.styles.filter (fun pv => decide (pv.1 ≠ S "decoration-overflow-mode")) ∧
      (truthyGet rule.styles (S "pointer-events") = false →
        (createDecorationElement rule).pointerNone = true)) ∧
    (∀ (rule : DecorationRule) (e : DomElem),
      matchesSel e rule.selector = true →
      (applyDecorationElem rule (removeDecorationElem rule e)).nodes =
        e.nodes.filter (fun n => decide (¬(n.className = rule.className ∧ n.ruleId = rule.id)))
          ++ [createDecorationElement rule]) := by
  refine ⟨?_, ?_, ?_, ?_, ?_⟩
  · intro oldRules newRules ho hn hond hnnd r
    refine ⟨⟨?_, ?_⟩, ⟨?_, ?_⟩, ⟨?_, ?_⟩⟩
    · intro hr
      simp only [reconcileToRemove, List.mem_map, List.mem_filter] at hr
      obtain ⟨e, ⟨hmem, hpred⟩, her⟩ := hr
      have hid : e.1 = r.id := by rw [ho e hmem, her]
      refine ⟨?_, ?_⟩
      · rw [← hid, mapGet_of_mem_nodup hond hmem, her]
      · rw [← hid]
        cases hg : mapGet newRules e.1 with
        | none => rfl
        | some v =>
          exfalso
          have hhas : mapHas newRules e.1 = true := by rw [mapHas, hg]; rfl
          simp [hhas] at hpred
    · rintro ⟨hget, hnone⟩
      simp only [reconcileToRemove, List.mem_map, List.mem_filter]
      refine ⟨(r.id, r), ⟨mapGet_mem hget, ?_⟩, rfl⟩
      simp [mapHas, hnone]
    · intro hr
      simp only [reconcileToAdd, List.mem_map, List.mem_filter] at hr
      obtain ⟨e, ⟨hmem, hpred⟩, her⟩ := hr
      have hid : e.1 = r.id := by rw [hn e hmem, her]
      refine ⟨?_, ?_⟩
      · rw [← hid, mapGet_of_mem_nodup hnnd hmem, her]
      · rw [← hid]
        cases hg : mapGet oldRules e.1 with
        | none => rfl
        | some v =>
          exfalso
          have hhas : mapHas oldRules e.1 = true := by rw [mapHas, hg]; rfl
          simp [hhas] at hpred
    · rintro ⟨hget, hnone⟩
      simp only [reconcileToAdd, List.mem_map, List.mem_filter]
      refine ⟨(r.id, r), ⟨mapGet_mem hget, ?_⟩, rfl⟩
      simp [mapHas, hnone]
    · intro hr
      simp only [reconcileToUpdate, List.mem_map, List.mem_filter] at hr
      obtain ⟨e, ⟨hmem, hpred⟩, her⟩ := hr
      have hid : e.1 = r.id := by rw [hn e hmem, her]
      refine ⟨?_, ?_⟩
      · rw [← hid, mapGet_of_mem_nodup hnnd hmem, her]
      · cases hg : mapGet oldRules e.1 with
        | none => rw [hg] at hpred; simp at hpred
        | some o =>
          rw [hg] at hpred
          refine ⟨o, by rw [← hid]; exact hg, ?_⟩
          have hos : o.styles ≠ e.2.styles := of_decide_eq_true hpred
          rw [her] at hos
          exact hos
    · rintro ⟨hget, o, ho', hne⟩
      simp only [reconcileToUpdate, List.mem_map, List.mem_filter]
      refine ⟨(r.id, r), ⟨mapGet_mem hget, ?_⟩, rfl⟩
      show (match mapGet oldRules r.id with
        | some oldRule => decide (oldRule.styles ≠ r.styles)
        | none => false) = true
      rw [ho']
      exact decide_eq_true hne
  · intro rule e
    exact ⟨removeElem_nodes rule e, removeElem_membership rule e⟩
  · intro rule e
    exact ⟨applyElem_nonmatch rule e, applyElem_new rule e⟩
  · intro rule
    refine ⟨rfl, ?_⟩
    intro hpe
    have hfd : truthyGet (rule.styles.filter
        (fun pv => decide (pv.1 ≠ S "decoration-overflow-mode"))) (S "pointer-events")
        = truthyGet rule.styles (S "pointer-events") := by
      unfold truthyGet
      rw [show rule.styles.filter (fun pv => decide (pv.1 ≠ S "decoration-overflow-mode"))
            = mapDelete rule.styles (S "decoration-overflow-mode") from rfl,
          mapGet_mapDelete_ne _
            (show (S "pointer-events" : Str) ≠ S "decoration-overflow-mode" by decide)]
    simp only [createDecorationElement]
    rw [hfd, hpe]
    decide
  · intro rule e hm
    exact removeThenAdd_nodes rule e hm

/-- A concrete decoration rule (old style). -/
def c2ruleA : DecorationRule :=
  { id := S "deco-a", selector := S ".mes_text", styles := strPairs [("color", "red")],
    className := S "ve-deco-a" }

/-- The same rule id reparsed with a different style map. -/
def c2ruleA2 : DecorationRule :=
  { id := S "deco-a", selector := S ".mes_text", styles := strPairs [("color", "blue")],
    className := S "ve-deco-a" }

/-- A newly added decoration rule. -/
def c2ruleB : DecorationRule :=
  { id := S "deco-b", selector := S ".avatar", styles := strPairs [("width", "30px")],
    className := S "ve-deco-b" }

/-- The old rule table. -/
def c2old : List (Str × DecorationRule) := [(S "deco-a", c2ruleA)]

/-- The new rule table. -/
def c2new : List (Str × DecorationRule) :=
  [(S "deco-a", c2ruleA2), (S "deco-b", c2ruleB)]

/-- A live element matching the added rule's selector. -/
def c2elem : DomElem :=
  { sels := [S ".avatar"], membership := [], nodes := [],
    computedPosition := S "static", stylePosition := none, styleOverflow := none }

/-- Witness for C2 at concrete rule tables and a concrete element. -/
theorem c2_reconciliation_correct_witness :
    (c2ruleB ∈ reconcileToAdd c2old c2new ↔
      mapGet c2new c2ruleB.id = some c2ruleB ∧ mapGet c2old c2ruleB.id = none) ∧
    (c2ruleA2 ∈ reconcileToUpdate c2old c2new ↔
      mapGet c2new c2ruleA2.id = some c2ruleA2 ∧
        ∃ r0, mapGet c2old c2ruleA2.id = some r0 ∧ r0.styles ≠ c2ruleA2.styles) ∧
    (applyDecorationElem c2ruleB (removeDecorationElem c2ruleB c2elem)).nodes =
      c2elem.nodes.filter
          (fun n => decide (¬(n.className = c2ruleB.className ∧ n.ruleId = c2ruleB.id)))
        ++ [createDecorationElement c2ruleB] :=
  ⟨(c2_reconciliation_correct.1 c2old c2new (by decide) (by decide) (by decide)
      (by decide) c2ruleB).2.1,
   (c2_reconciliation_correct.1 c2old c2new (by decide) (by decide) (by decide)
      (by decide) c2ruleA2).2.2,
   c2_reconciliation_correct.2.2.2.2 c2ruleB c2elem (by decide)⟩

/-! ## C5: unit round-trip -/

/-- Whether a string is empty or starts with a non-digit. -/
def headNonDigit : Str → Bool
  | [] => true
  | c :: _ => !c.isDigit

theorem isQuote_digit {c : Char} (hc : c.isDigit = true) : isQuote c = false := by
  unfold isQuote
  have h1 : c ≠ '"' := fun h => absurd hc (by rw [h]; decide)
  have h2 : c ≠ '\'' := fun h => absurd hc (by rw [h]; decide)
  simp [h1, h2]

theorem strStarts_cons_digit {c : Char} {t : Str} {c1 : Char} {p : Str}
    (hc : c.isDigit = true) (hc1 : c1.isDigit = false) :
    strStarts (c :: t) (c1 :: p) = false := by
  unfold strStarts
  simp only [List.isPrefixOf]
  have hne : (c1 == c) = false := by
    rw [beq_eq_false_iff_ne]
    intro h
    rw [h] at hc1
    rw [hc] at hc1
    exact Bool.noConfusion hc1
  rw [hne]
  rfl

theorem strStarts_digit_append_false {c : Char} {t u : Str} {c1 : Char} {p : Str}
    (hc : c.isDigit = true) (hc1 : c1.isDigit = false)
    (h : strStarts ((c :: t) ++ u) (c1 :: p) = true) : False := by
  rw [List.cons_append, strStarts_cons_digit hc hc1] at h
  exact Bool.noConfusion h

theorem digit_head_ne {c : Char} {t u : Str} (hc : c.isDigit = true)
    (hu : headNonDigit u = true) (hne : u ≠ []) : c :: t ≠ u := by
  cases u with
  | nil => exact absurd rfl hne
  | cons c1 u1 =>
    intro h
    injection h with h1 _
    have hc1 : c1.isDigit = false := by simpa [headNonDigit] using hu
    rw [← h1] at hc1
    rw [hc] at hc1
    exact Bool.noConfusion hc1

theorem append_digit_ne {c : Char} {t u v : Str} (hc : c.isDigit = true)
    (hv : headNonDigit v = true) (hvne : v ≠ []) : (c :: t) ++ u ≠ v := by
  rw [List.cons_append]
  exact digit_head_ne hc hv hvne

theorem isHexColor_digit {c : Char} {t : Str} (hc : c.isDigit = true) :
    isHexColor (c :: t) = false := by
  unfold isHexColor
  split
  · rename_i rest heq
    injection heq with h1 _
    rw [h1] at hc
    exact absurd hc (by decide)
  · rfl

theorem mapGet_none_of_headNonDigit {m : List (Str × α)} {c : Char} {t : Str}
    (hc : c.isDigit = true) (hm : ∀ e ∈ m, headNonDigit e.1 = true) :
    mapGet m (c :: t) = none := by
  have hf : m.find? (fun e => decide (e.1 = c :: t)) = none := by
    rw [List.find?_eq_none]
    intro e he hp
    have h1 := hm e he
    have hek : e.1 = c :: t := of_decide_eq_true hp
    rw [hek] at h1
    simp [headNonDigit, hc] at h1
  unfold mapGet
  rw [hf]
  rfl

theorem truthyGet_digit_false {m : List (Str × Str)} {c : Char} {t : Str}
    (hc : c.isDigit = true) (hm : m.all (fun e => headNonDigit e.1) = true) :
    truthyGet m (c :: t) = false := by
  unfold truthyGet
  rw [mapGet_none_of_headNonDigit hc (fun e he => List.all_eq_true.mp hm e he)]

theorem truthyGet_digits_append_false {m : List (Str × Str)} {c : Char} {t u : Str}
    (hc : c.isDigit = true) (hm : m.all (fun e => headNonDigit e.1) = true) :
    truthyGet m ((c :: t) ++ u) = false := by
  rw [List.cons_append]
  exact truthyGet_digit_false hc hm

theorem fnMatch_none_of_digit {nm : Str} {c : Char} {t : Str}
    (hc : c.isDigit = true) (hnm : headNonDigit nm = true) :
    fnMatch nm (c :: t) = none := by
  have hcond : ¬(strStarts (c :: t) (nm ++ ['(']) = true ∧ strEnds (c :: t) [')'] = true ∧
      nm.length + 2 ≤ (c :: t).length) := by
    rintro ⟨h2, -, -⟩
    cases nm with
    | nil =>
      rw [show (([] : Str) ++ ['(']) = ['('] from rfl,
          strStarts_cons_digit hc (by decide)] at h2
      exact Bool.noConfusion h2
    | cons c1 nm1 =>
      have hc1 : c1.isDigit = false := by simpa [headNonDigit] using hnm
      rw [List.cons_append, strStarts_cons_digit hc hc1] at h2
      exact Bool.noConfusion h2
  unfold fnMatch
  rw [if_neg hcond]

theorem findFnLoop_none_of_digit {l : List Str} {c : Char} {t : Str}
    (hc : c.isDigit = true) (hl : ∀ nm ∈ l, headNonDigit nm = true) :
    findFnLoop l (c :: t) = none := by
  induction l with
  | nil => rfl
  | cons nm rest ih =>
    simp only [findFnLoop]
    rw [fnMatch_none_of_digit hc (hl nm (List.mem_cons_self _ _))]
    exact ih (fun nm1 h => hl nm1 (List.mem_cons_of_mem _ h))

theorem findFn_digits_none {c : Char} {t u : Str} (hc : c.isDigit = true) :
    findFn ((c :: t) ++ u) = none := by
  rw [List.cons_append]
  unfold findFn
  exact findFnLoop_none_of_digit hc
    (fun nm h => List.all_eq_true.mp
      (by decide : functionPatternNames.all headNonDigit = true) nm h)

theorem takeWhile_digits_append {d u : Str} (hd : d.all Char.isDigit = true)
    (hu : headNonDigit u = true) :
    (d ++ u).takeWhile Char.isDigit = d := by
  induction d with
  | nil =>
    cases u with
    | nil => rfl
    | cons c1 u1 =>
      have hc1 : c1.isDigit = false := by simpa [headNonDigit] using hu
      simp [List.takeWhile_cons, hc1]
  | cons c t ih =>
    simp only [List.all_cons, Bool.and_eq_true] at hd
    simp [List.cons_append, List.takeWhile_cons, hd.1, ih hd.2]

theorem numSplit_concat {c : Char} {t u : Str}
    (hc : c.isDigit = true) (hall : t.all Char.isDigit = true)
    (hu : headNonDigit u = true) (hdot : u.head? ≠ some '.') :
    numSplit ((c :: t) ++ u) = some (c :: t, u) := by
  have htake : ((c :: t) ++ u).takeWhile Char.isDigit = c :: t :=
    takeWhile_digits_append (by simp [hc, hall]) hu
  simp only [numSplit]
  rw [htake, List.drop_left]
  rw [if_neg (by simp : ¬((c :: t).isEmpty = true))]
  cases u with
  | nil => rfl
  | cons c1 u1 =>
    split
    · rename_i t2 heq
      injection heq with h1 _
      exact absurd (by rw [List.head?_cons, h1] : (c1 :: u1).head? = some '.') hdot
    · rfl

theorem bool_eq_true_iff {a b : Bool} (h : (a = true) ↔ (b = true)) : a = b := by
  cases a <;> cases b <;> simp_all

theorem strEnds_iff {s u : Str} : strEnds s u = true ↔ u <:+ s := by
  unfold strEnds
  exact List.isSuffixOf_iff_suffix

theorem strEnds_short {d u u1 : Str} (hlen : u1.length ≤ u.length) :
    strEnds (d ++ u) u1 = strEnds u u1 := by
  apply bool_eq_true_iff
  rw [strEnds_iff, strEnds_iff]
  constructor
  · intro h
    rw [List.suffix_iff_eq_drop] at h
    have hlen2 : (d ++ u).length - u1.length = d.length + (u.length - u1.length) := by
      simp only [List.length_append]
      omega
    rw [hlen2, List.drop_append] at h
    rw [h]
    exact List.drop_suffix _ _
  · intro h
    exact h.trans (List.suffix_append d u)

theorem strEnds_long_nondigit {d u u1 : Str} (hd : d.all Char.isDigit = true)
    (hu1 : u1.all (fun ch => !ch.isDigit) = true) (hlen : u.length < u1.length) :
    strEnds (d ++ u) u1 = false := by
  cases h : strEnds (d ++ u) u1 with
  | false => rfl
  | true =>
    exfalso
    obtain ⟨p, hp⟩ := strEnds_iff.mp h
    have hlen2 : p.length + u1.length = d.length + u.length := by
      have := congrArg List.length hp
      simpa [List.length_append] using this
    have hpd : p.length < d.length := by omega
    have hu1eq : u1 = d.drop p.length ++ u := by
      have h1 : (p ++ u1).drop p.length = u1 := List.drop_left p u1
      rw [hp] at h1
      rw [← h1, List.drop_append_of_le_length (Nat.le_of_lt hpd)]
    have hw : d.drop p.length ≠ [] := by
      intro hnil
      have := congrArg List.length hnil
      simp [List.length_drop] at this
      omega
    obtain ⟨cw, tw, hcw⟩ := List.exists_cons_of_ne_nil hw
    have hcwd : cw ∈ d := List.drop_subset p.length d (by rw [hcw]; exact List.mem_cons_self _ _)
    have hdig : cw.isDigit = true := List.all_eq_true.mp hd cw hcwd
    have hcwu : cw ∈ u1 := by
      rw [hu1eq, hcw]
      exact List.mem_append_left u (List.mem_cons_self _ _)
    have hnd := List.all_eq_true.mp hu1 cw hcwu
    rw [hdig] at hnd
    simp at hnd

theorem parseUnitValueLoop_concat (entries : List (Str × Str)) (d u : Str)
    (hd : d.all Char.isDigit = true)
    (hnodig : entries.all (fun e => e.1.all (fun ch => !ch.isDigit)) = true) :
    parseUnitValueLoop entries (d ++ u) =
      match entries.find? (fun e => strEnds u e.1 && decide (e.1.length ≤ u.length)) with
      | some e => replaceFirst e.1 [] (d ++ u) ++ e.2
      | none => d ++ u := by
  induction entries with
  | nil => rfl
  | cons e rest ih =>
    obtain ⟨cn1, css1⟩ := e
    simp only [List.all_cons, Bool.and_eq_true] at hnodig
    simp only [parseUnitValueLoop, List.find?]
    by_cases hle : cn1.length ≤ u.length
    · have heq : strEnds (d ++ u) cn1 = strEnds u cn1 := strEnds_short hle
      cases hse : strEnds u cn1 with
      | true =>
        rw [heq, hse, decide_eq_true hle]
        rfl
      | false =>
        rw [heq, hse]
        exact ih hnodig.2
    · have hF : strEnds (d ++ u) cn1 = false :=
        strEnds_long_nondigit hd hnodig.1 (Nat.lt_of_not_le hle)
      rw [hF, decide_eq_false hle, Bool.and_false]
      exact ih hnodig.2

theorem replaceFirst_digits_concat {d target : Str} (hd : d.all Char.isDigit = true)
    (hne : target ≠ []) (hh : headNonDigit target = true) :
    replaceFirst target [] (d ++ target) = d := by
  induction d with
  | nil =>
    simp only [List.nil_append]
    obtain ⟨c0, t0, hT⟩ := List.exists_cons_of_ne_nil hne
    rw [hT]
    simp only [replaceFirst]
    rw [if_pos (List.isPrefixOf_iff_prefix.mpr (List.prefix_refl _))]
    simp [List.drop_length]
  | cons c t ih =>
    simp only [List.all_cons, Bool.and_eq_true] at hd
    rw [List.cons_append]
    simp only [replaceFirst]
    rw [if_neg ?hpre]
    · rw [ih hd.2]
    case hpre =>
      intro hp
      obtain ⟨c0, t0, hT⟩ := List.exists_cons_of_ne_nil hne
      rw [hT] at hp
      simp only [List.isPrefixOf, Bool.and_eq_true] at hp
      have hc0 : c0.isDigit = false := by rw [hT] at hh; simpa [headNonDigit] using hh
      have hc0c : c0 = c := by simpa using hp.1
      rw [hc0c] at hc0
      rw [hd.1] at hc0
      exact Bool.noConfusion hc0

theorem strIncl_cons (a : Char) (s1 sub : Str) :
    strIncl (a :: s1) sub = if sub.isPrefixOf (a :: s1) then true else strIncl s1 sub := rfl

theorem strIncl_false_of_head_notin {s : Str} {c1 : Char} {p : Str}
    (h : c1 ∉ s) : strIncl s (c1 :: p) = false := by
  induction s with
  | nil => rfl
  | cons a s1 ih =>
    rw [strIncl_cons]
    rw [if_neg ?pref]
    · exact ih (fun hm => h (List.mem_cons_of_mem _ hm))
    case pref =>
      intro hp
      simp only [List.isPrefixOf, Bool.and_eq_true] at hp
      have hc1a : c1 = a := by simpa using hp.1
      exact h (by rw [hc1a]; exact List.mem_cons_self a s1)

theorem notin_digits_append {x : Char} {d u : Str} (hd : d.all Char.isDigit = true)
    (hx : x.isDigit = false) (hu : x ∉ u) : x ∉ d ++ u := by
  intro hmem
  rcases List.mem_append.mp hmem with h | h
  · have := List.all_eq_true.mp hd x h
    rw [hx] at this
    exact Bool.noConfusion this
  · exact hu h

theorem strIncl_digits_append_false {c : Char} {t u : Str} {c1 : Char} {p : Str}
    (hc : c.isDigit = true) (hall : t.all Char.isDigit = true)
    (hc1 : c1.isDigit = false) (hu : c1 ∉ u) :
    strIncl ((c :: t) ++ u) (c1 :: p) = false :=
  strIncl_false_of_head_notin (notin_digits_append (by simp [hc, hall]) hc1 hu)

theorem stripQuotes_digits_append {c : Char} {t u : Str} (hc : c.isDigit = true)
    (hune : u ≠ []) (hq : u.getLast?.all (fun x => !isQuote x) = true) :
    stripQuotes ((c :: t) ++ u) = (c :: t) ++ u := by
  have h1 : dropLeadQuote ((c :: t) ++ u) = (c :: t) ++ u := by
    rw [List.cons_append]
    simp only [dropLeadQuote]
    rw [if_neg (by simp [isQuote_digit hc])]
  unfold stripQuotes
  rw [h1]
  unfold dropTrailQuote
  cases hrev : ((c :: t) ++ u).reverse with
  | nil =>
    exfalso
    simp at hrev
  | cons x rest =>
    have hxu : u.getLast? = some x := by
      have h2 : ((c :: t) ++ u).getLast? = some x := by
        rw [← List.head?_reverse, hrev]
        rfl
      rw [List.getLast?_append] at h2
      cases hgl : u.getLast? with
      | some y =>
        rw [hgl, Option.or_some] at h2
        exact h2
      | none =>
        exfalso
        obtain ⟨c0, t0, hT⟩ := List.exists_cons_of_ne_nil hune
        rw [hT, ← List.head?_reverse, List.head?_eq_none_iff] at hgl
        simp at hgl
    have hqx : isQuote x = false := by
      rw [hxu] at hq
      simpa using hq
    show (if isQuote x then rest.reverse else (c :: t) ++ u) = (c :: t) ++ u
    rw [if_neg (by simp [hqx])]

theorem c5_gate_case (cn css : Str) (c : Char) (t : Str) (P : Str)
    (hc : c.isDigit = true) (hall : t.all Char.isDigit = true)
    (hP0 : P ≠ []) (hPen : strEnds P (S "-enabled") = false)
    (hP1 : P ≠ S "avatar-layout-mode") (hP2 : P ≠ S "info-layout-mode")
    (hP3 : P ≠ S "info-direction") (hP4 : P ≠ S "info-position")
    (hP5 : P ≠ S "avatar-position")
    (hne : cn ≠ []) (hh : headNonDigit cn = true) (hdot : cn.head? ≠ some '.')
    (hlastq : cn.getLast?.all (fun x => !isQuote x) = true)
    (hfind : unitMapEntries.find?
        (fun e => strEnds cn e.1 && decide (e.1.length ≤ cn.length)) = some (cn, css))
    (hgate : gateUnits.any (fun u => decide (cn = u)) = true)
    (hcssh : headNonDigit css = true) (hcssdot : css.head? ≠ some '.')
    (hlatin : latinUnits.any (fun u => decide (css = u)) = true)
    (hcnmap : mapGet cnUnitMap css = some cn) :
    formatValue (parseValue ((c :: t) ++ cn) P) P = (c :: t) ++ cn := by
  have hv : stripQuotes ((c :: t) ++ cn) = (c :: t) ++ cn :=
    stripQuotes_digits_append hc hne hlastq
  have hns : numSplit ((c :: t) ++ cn) = some (c :: t, cn) :=
    numSplit_concat hc hall hh hdot
  have hgm : unitGateMatch ((c :: t) ++ cn) = true := by
    unfold unitGateMatch
    rw [hns]
    exact hgate
  have hpu : parseUnitValue ((c :: t) ++ cn) = (c :: t) ++ css := by
    unfold parseUnitValue
    rw [parseUnitValueLoop_concat unitMapEntries (c :: t) cn
        (by simp [hc, hall]) (by decide), hfind]
    show replaceFirst cn [] ((c :: t) ++ cn) ++ css = (c :: t) ++ css
    rw [replaceFirst_digits_concat (by simp [hc, hall]) hne hh]
  have hparse : parseValue ((c :: t) ++ cn) P = (c :: t) ++ css := by
    unfold parseValue
    simp only [parseValueF]
    rw [if_neg hP0, hv]
    rw [if_neg (show ¬(truthyGet presetValues ((c :: t) ++ cn) = true) by
      intro hcon
      rw [truthyGet_digits_append_false hc
        (by decide : presetValues.all (fun e => headNonDigit e.1) = true)] at hcon
      exact Bool.noConfusion hcon)]
    simp only [findFn_digits_none hc]
    rw [if_pos hgm, hpu]
  rw [hparse]
  have hns2 : numSplit ((c :: t) ++ css) = some (c :: t, css) :=
    numSplit_concat hc hall hcssh hcssdot
  have hlum : latinUnitMatch ((c :: t) ++ css) = some (c :: t, css) := by
    simp only [latinUnitMatch, hns2]
    rw [if_pos hlatin]
  unfold formatValue
  rw [if_neg hP0]
  rw [if_neg (append_digit_ne hc (by decide) (by decide) : (c :: t) ++ css ≠ S "transparent")]
  rw [if_neg (append_digit_ne hc (by decide) (by decide) : (c :: t) ++ css ≠ S "none")]
  rw [if_neg (show ¬(P = S "shadow-enabled" ∨ P = S "button-shadow-enabled" ∨
      P = S "icon-shadow-enabled") by
    rintro (h | h | h) <;> rw [h] at hPen <;> exact absurd hPen (by decide))]
  rw [if_neg hP1, if_neg hP2, if_neg hP3, if_neg hP4, if_neg hP5]
  rw [if_neg (show ¬(strStarts ((c :: t) ++ css) (S "rgb(") = true ∨
      strStarts ((c :: t) ++ css) (S "rgba(") = true) by
    rintro (h | h)
    · exact strStarts_digit_append_false hc (by decide) h
    · exact strStarts_digit_append_false hc (by decide) h)]
  rw [if_neg (show ¬(isHexColor ((c :: t) ++ css) = true) by
    rw [List.cons_append, isHexColor_digit hc]
    exact fun h => Bool.noConfusion h)]
  simp only [hlum]
  rw [hcnmap]
  simp only [orD]
  rw [if_neg hne]

theorem c5_nongate_case (cn : Str) (c : Char) (t : Str) (P : Str)
    (hc : c.isDigit = true) (hall : t.all Char.isDigit = true)
    (hP0 : P ≠ []) (hPen : strEnds P (S "-enabled") = false)
    (hP1 : P ≠ S "avatar-layout-mode") (hP2 : P ≠ S "info-layout-mode")
    (hP3 : P ≠ S "info-direction") (hP4 : P ≠ S "info-position")
    (hP5 : P ≠ S "avatar-position")
    (hne : cn ≠ []) (hh : headNonDigit cn = true) (hdot : cn.head? ≠ some '.')
    (hlastq : cn.getLast?.all (fun x => !isQuote x) = true)
    (hgate : gateUnits.any (fun u => decide (cn = u)) = false)
    (hlatin : latinUnits.any (fun u => decide (cn = u)) = false)
    (hg : 'g' ∉ cn) (hd2 : 'd' ∉ cn) :
    formatValue (parseValue ((c :: t) ++ cn) P) P = (c :: t) ++ cn := by
  have hv : stripQuotes ((c :: t) ++ cn) = (c :: t) ++ cn :=
    stripQuotes_digits_append hc hne hlastq
  have hns : numSplit ((c :: t) ++ cn) = some (c :: t, cn) :=
    numSplit_concat hc hall hh hdot
  have hgm : unitGateMatch ((c :: t) ++ cn) = false := by
    unfold unitGateMatch
    rw [hns]
    exact hgate
  have hparse : parseValue ((c :: t) ++ cn) P = (c :: t) ++ cn := by
    unfold parseValue
    simp only [parseValueF]
    rw [if_neg hP0, hv]
    rw [if_neg (show ¬(truthyGet presetValues ((c :: t) ++ cn) = true) by
      intro hcon
      rw [truthyGet_digits_append_false hc
        (by decide : presetValues.all (fun e => headNonDigit e.1) = true)] at hcon
      exact Bool.noConfusion hcon)]
    simp only [findFn_digits_none hc]
    rw [if_neg (show ¬(unitGateMatch ((c :: t) ++ cn) = true) by
      intro hcon
      rw [hgm] at hcon
      exact Bool.noConfusion hcon)]
    rw [if_neg (show ¬(strStarts ((c :: t) ++ cn) (S "rgb(") = true ∨
        strStarts ((c :: t) ++ cn) (S "rgba(") = true) by
      rintro (h | h)
      · exact strStarts_digit_append_false hc (by decide) h
      · exact strStarts_digit_append_false hc (by decide) h)]
    rw [if_neg (show ¬(isHexColor ((c :: t) ++ cn) = true) by
      rw [List.cons_append, isHexColor_digit hc]
      exact fun h => Bool.noConfusion h)]
    rw [if_neg (show ¬(strEnds P (S "-enabled") = true) by
      intro hcon
      rw [hPen] at hcon
      exact Bool.noConfusion hcon)]
    rw [if_neg hP1, if_neg hP2, if_neg hP3, if_neg hP4, if_neg hP5]
  rw [hparse]
  have hlum : latinUnitMatch ((c :: t) ++ cn) = none := by
    simp only [latinUnitMatch, hns]
    rw [if_neg (by simp [hlatin])]
  unfold formatValue
  rw [if_neg hP0]
  rw [if_neg (append_digit_ne hc (by decide) (by decide) : (c :: t) ++ cn ≠ S "transparent")]
  rw [if_neg (append_digit_ne hc (by decide) (by decide) : (c :: t) ++ cn ≠ S "none")]
  rw [if_neg (show ¬(P = S "shadow-enabled" ∨ P = S "button-shadow-enabled" ∨
      P = S "icon-shadow-enabled") by
    rintro (h | h | h) <;> rw [h] at hPen <;> exact absurd hPen (by decide))]
  rw [if_neg hP1, if_neg hP2, if_neg hP3, if_neg hP4, if_neg hP5]
  rw [if_neg (show ¬(strStarts ((c :: t) ++ cn) (S "rgb(") = true ∨
      strStarts ((c :: t) ++ cn) (S "rgba(") = true) by
    rintro (h | h)
    · exact strStarts_digit_append_false hc (by decide) h
    · exact strStarts_digit_append_false hc (by decide) h)]
  rw [if_neg (show ¬(isHexColor ((c :: t) ++ cn) = true) by
    rw [List.cons_append, isHexColor_digit hc]
    exact fun h => Bool.noConfusion h)]
  simp only [hlum]
  rw [if_neg (show ¬(strIncl ((c :: t) ++ cn) (S "gradient") = true) by
    intro hcon
    have hinc : strIncl ((c :: t) ++ cn) (S "gradient") = false :=
      strIncl_digits_append_false hc hall (by decide) hg
    rw [hinc] at hcon
    exact Bool.noConfusion hcon)]
  rw [if_neg (show ¬(strIncl ((c :: t) ++ cn) (S "drop-shadow") = true) by
    intro hcon
    have hinc : strIncl ((c :: t) ++ cn) (S "drop-shadow") = false :=
      strIncl_digits_append_false hc hall (by decide) hd2
    rw [hinc] at hcon
    exact Bool.noConfusion hcon)]
  rw [if_neg (show ¬(truthyGet bgSizeMapVals ((c :: t) ++ cn) = true) by
    intro hcon
    rw [truthyGet_digits_append_false hc
      (by decide : bgSizeMapVals.all (fun e => headNonDigit e.1) = true)] at hcon
    exact Bool.noConfusion hcon)]
  rw [if_neg (show ¬(truthyGet positionMapVals ((c :: t) ++ cn) = true) by
    intro hcon
    rw [truthyGet_digits_append_false hc
      (by decide : positionMapVals.all (fun e => headNonDigit e.1) = true)] at hcon
    exact Bool.noConfusion hcon)]
  rw [if_neg (show ¬(truthyGet displayMapVals ((c :: t) ++ cn) = true) by
    intro hcon
    rw [truthyGet_digits_append_false hc
      (by decide : displayMapVals.all (fun e => headNonDigit e.1) = true)] at hcon
    exact Bool.noConfusion hcon)]

/-- **C5 counterexample**: the unit table maps 倍 to the empty CSS unit, so
`3倍` parses to the bare numeral `3`, which `formatValue` cannot dress back
up: the round trip returns `3`, not `3倍`. -/
theorem c5_unit_roundtrip_counterexample :
    (S "倍", S "") ∈ unitMapEntries ∧
    parseValue (S "3倍") (S "width") = S "3" ∧
    formatValue (parseValue (S "3倍") (S "width")) (S "width") = S "3" ∧
    formatValue (parseValue (S "3倍") (S "width")) (S "width") ≠ S "3倍" :=
  ⟨by decide, by decide, by decide, by decide⟩

/-- The decidable side conditions under which a non-gate unit pair
round-trips: a nonempty, non-digit-headed, quote-free localized unit that
matches neither the gate regex's unit set nor the latin unit set and
contains no character of `gradient`'s or `drop-shadow`'s head. -/
def c5sideN (e : Str × Str) : Bool :=
  decide (e.1 ≠ []) &&
  (headNonDigit e.1 &&
  (decide (e.1.head? ≠ some '.') &&
  (e.1.getLast?.all (fun x => !isQuote x) &&
  (!(gateUnits.any (fun u => decide (e.1 = u))) &&
  (!(latinUnits.any (fun u => decide (e.1 = u))) &&
  (decide ('g' ∉ e.1) && decide ('d' ∉ e.1)))))))

/-- The decidable side conditions under which a gate unit pair round-trips:
`parseUnitValue`'s entry scan lands on the pair itself, the canonical unit
is a latin unit, and the canonical-to-localized map sends it back. -/
def c5sideG (e : Str × Str) : Bool :=
  decide (e.1 ≠ []) &&
  (headNonDigit e.1 &&
  (decide (e.1.head? ≠ some '.') &&
  (e.1.getLast?.all (fun x => !isQuote x) &&
  (decide (unitMapEntries.find?
      (fun e2 => strEnds e.1 e2.1 && decide (e2.1.length ≤ e.1.length)) = some e) &&
  (gateUnits.any (fun u => decide (e.1 = u)) &&
  (headNonDigit e.2 &&
  (decide (e.2.head? ≠ some '.') &&
  (latinUnits.any (fun u => decide (e.2 = u)) &&
  decide (mapGet cnUnitMap e.2 = some e.1)))))))))

/-- **C5 amended** Unit round-trip: for every `(localizedUnit, canonicalUnit)`
pair of the unit table other than `(倍, "")`, every numeral (a digit followed
by digits) and every plain property (nonempty, not an `-enabled` toggle and
none of the five mode/position/direction properties with their own value
maps), `formatValue (parseValue (numeral ++ unit) P) P` returns
`numeral ++ unit` unchanged.  The pair `(倍, "")` breaks the round trip
(see the counterexample): its canonical unit is empty, so the parsed value
is a bare numeral that `formatValue` leaves without a unit. -/
theorem c5_unit_roundtrip_amended (cn css : Str)
    (hmem : (cn, css) ∈ unitMapEntries) (hcn : cn ≠ S "倍")
    (c : Char) (t : Str) (hc : c.isDigit = true) (hall : t.all Char.isDigit = true)
    (P : Str) (hP0 : P ≠ []) (hPen : strEnds P (S "-enabled") = false)
    (hP1 : P ≠ S "avatar-layout-mode") (hP2 : P ≠ S "info-layout-mode")
    (hP3 : P ≠ S "info-direction") (hP4 : P ≠ S "info-position")
    (hP5 : P ≠ S "avatar-position") :
    formatValue (parseValue ((c :: t) ++ cn) P) P = (c :: t) ++ cn := by
  have hall28 : unitMapEntries.all
      (fun e => decide (e.1 = S "倍") || (c5sideN e || c5sideG e)) = true := by decide
  have hx := List.all_eq_true.mp hall28 (cn, css) hmem
  simp only [Bool.or_eq_true] at hx
  rcases hx with hx | hx | hx
  · exact absurd (of_decide_eq_true hx) hcn
  · simp only [c5sideN, Bool.and_eq_true, Bool.not_eq_true', decide_eq_true_eq] at hx
    obtain ⟨h1, h2, h3, h4, h5, h6, h7, h8⟩ := hx
    exact c5_nongate_case cn c t P hc hall hP0 hPen hP1 hP2 hP3 hP4 hP5
      h1 h2 h3 h4 h5 h6 h7 h8
  · simp only [c5sideG, Bool.and_eq_true, decide_eq_true_eq] at hx
    obtain ⟨h1, h2, h3, h4, h5, h6, h7, h8, h9, h10⟩ := hx
    exact c5_gate_case cn css c t P hc hall hP0 hPen hP1 hP2 hP3 hP4 hP5
      h1 h2 h3 h4 h5 h6 h7 h8 h9 h10

/-- Witness for C5 (amended) at the pair `(像素, px)`, the numeral `3` and
the plain property `width`. -/
theorem c5_unit_roundtrip_amended_witness :
    formatValue (parseValue (S "3像素") (S "width")) (S "width") = S "3像素" :=
  c5_unit_roundtrip_amended (S "像素") (S "px") (by decide) (by decide) '3' []
    (by decide) (by decide) (S "width") (by decide) (by decide) (by decide)
    (by decide) (by decide) (by decide) (by decide)

end VE
